import Mathlib

/-!
Verification development for the document-to-template conversion engine of
the `neurathon` portfolio generator (`src/server.js`).

The JavaScript source is shallowly embedded over `List Char`.  Regular
expressions from the source are embedded through a small backtracking
regex engine (`RE`) whose candidate ordering mirrors the JavaScript
engine (leftmost match, greedy quantifiers prefer long, lazy quantifiers
prefer short, alternation prefers left).  String-level `replace`,
`match`, `matchAll`, and `split` are embedded with the same first-match /
global-scan semantics as the JavaScript string methods.
-/

set_option maxRecDepth 10000

namespace Neurathon

/-- Strings are modelled as lists of characters. -/
abbrev Str := List Char

/-- JavaScript `\w`: ASCII letters, digits and underscore. -/
def isWordCh (c : Char) : Bool :=
  (('a' ≤ c && c ≤ 'z') || ('A' ≤ c && c ≤ 'Z') || ('0' ≤ c && c ≤ '9') || c = '_')

/-- JavaScript `\s` restricted to the ASCII whitespace characters. -/
def isSpaceCh (c : Char) : Bool :=
  c = ' ' || c = '\t' || c = '\n' || c = '\r' || c = '\x0b' || c = '\x0c'

/-- JavaScript `\d`. -/
def isDigitCh (c : Char) : Bool :=
  '0' ≤ c && c ≤ '9'

/-- ASCII lower-casing, as used for case-insensitive regex flags. -/
def lowC (c : Char) : Char :=
  if 'A' ≤ c && c ≤ 'Z' then Char.ofNat (c.toNat + 32) else c

/-- Lower-case a string (JS `toLowerCase` on the ASCII range). -/
def lowS (s : Str) : Str := s.map lowC

/-- JS `String.prototype.trim` (ASCII whitespace). -/
def trimS (s : Str) : Str :=
  ((s.dropWhile isSpaceCh).reverse.dropWhile isSpaceCh).reverse

/-- Does `s` start with `p` (case-sensitive)? -/
def startsWithS : Str → Str → Bool
  | _, [] => true
  | [], _ :: _ => false
  | c :: cs, p :: ps => c = p && startsWithS cs ps

/-- Does `s` start with `p`, comparing case-insensitively? -/
def startsWithCI (s p : Str) : Bool :=
  startsWithS (lowS s) (lowS p)

/-- Does `s` contain `p` as a (case-sensitive) substring? -/
def containsSub (p : Str) : Str → Bool
  | [] => startsWithS [] p
  | c :: cs => startsWithS (c :: cs) p || containsSub p cs

/-- Does `s` contain `p` as a case-insensitive substring? -/
def containsCI (p s : Str) : Bool :=
  containsSub (lowS p) (lowS s)

/-- Index of the first occurrence of substring `p` in `s` (JS `indexOf`). -/
def idxOfSub (p : Str) : Str → Option Nat
  | [] => if startsWithS [] p then some 0 else none
  | c :: cs =>
    if startsWithS (c :: cs) p then some 0
    else (idxOfSub p cs).map (· + 1)

/-- JS `s.replace(pat, repl)` with a plain-string pattern: replace the
first occurrence only; an empty pattern inserts at the front. -/
def replaceFirstSub (pat repl : Str) : Str → Str
  | [] => if startsWithS [] pat then repl else []
  | c :: cs =>
    if startsWithS (c :: cs) pat then repl ++ (c :: cs).drop pat.length
    else c :: replaceFirstSub pat repl cs

/-- JS `s.slice(a, b)` for non-negative bounds. -/
def sliceS (s : Str) (a b : Nat) : Str :=
  (s.take b).drop a

/-- JS `s.slice(0, n)`. -/
def takeS (s : Str) (n : Nat) : Str := s.take n

/-! ### A small backtracking regex engine

Only the constructs appearing in `server.js` are supported: single
character classes, sequencing, alternation, optional groups, greedy and
lazy star over a character class, `+` over a class, word boundaries and
(negative) lookaheads.  Counted repetitions and case-insensitive literals
are desugared by the smart constructors below. -/

inductive RE where
  | eps : RE
  | cls (p : Char → Bool) : RE
  | seq (a b : RE) : RE
  | alt (a b : RE) : RE
  | opt (a : RE) : RE
  | many (p : Char → Bool) : RE
  | many1 (p : Char → Bool) : RE
  | manyL (p : Char → Bool) : RE
  | wb : RE
  | la (a : RE) : RE
  | nla (a : RE) : RE

/-- All splits of a maximal run of `p`-characters, longest first, each
with the last consumed character and remaining input. -/
def manySplits (p : Char → Bool) (prev : Option Char) : Str → List (Str × Option Char × Str)
  | [] => [([], prev, [])]
  | c :: cs =>
    (if p c then (manySplits p (some c) cs).map (fun x => (c :: x.1, x.2.1, x.2.2)) else [])
    ++ [([], prev, c :: cs)]

/-- Is the boundary between `prev` and the head of `s` a `\b` boundary? -/
def atWb (prev : Option Char) (s : Str) : Bool :=
  let l := match prev with | none => false | some c => isWordCh c
  let r := match s with | [] => false | c :: _ => isWordCh c
  l ≠ r

/-- Candidate matches of `re` at the start of `s`, in engine preference
order.  Each candidate is (consumed text, last consumed char, rest). -/
def mRE : RE → Option Char → Str → List (Str × Option Char × Str)
  | .eps, prev, s => [([], prev, s)]
  | .cls p, _, s =>
    match s with
    | [] => []
    | c :: cs => if p c then [([c], some c, cs)] else []
  | .seq a b, prev, s =>
    (mRE a prev s).flatMap (fun x =>
      (mRE b x.2.1 x.2.2).map (fun y => (x.1 ++ y.1, y.2.1, y.2.2)))
  | .alt a b, prev, s => mRE a prev s ++ mRE b prev s
  | .opt a, prev, s => mRE a prev s ++ [([], prev, s)]
  | .many p, prev, s => manySplits p prev s
  | .many1 p, _, s =>
    match s with
    | [] => []
    | c :: cs =>
      if p c then (manySplits p (some c) cs).map (fun x => (c :: x.1, x.2.1, x.2.2))
      else []
  | .manyL p, prev, s => (manySplits p prev s).reverse
  | .wb, prev, s => if atWb prev s then [([], prev, s)] else []
  | .la a, prev, s => if (mRE a prev s).isEmpty then [] else [([], prev, s)]
  | .nla a, prev, s => if (mRE a prev s).isEmpty then [([], prev, s)] else []

/-- A case-sensitive literal character. -/
def chS (c : Char) : RE := .cls (fun d => d = c)

/-- A case-insensitive literal character (`c` given in lower case). -/
def chC (c : Char) : RE := .cls (fun d => lowC d = c)

/-- Sequence a list of regexes. -/
def seqL (l : List RE) : RE := l.foldr .seq .eps

/-- Alternative over a non-empty list (left preference). -/
def altL : List RE → RE
  | [] => .nla .eps
  | [r] => r
  | r :: rs => .alt r (altL rs)

/-- Case-sensitive literal string. -/
def litS (s : Str) : RE := seqL (s.map chS)

/-- Case-insensitive literal string (write it in lower case). -/
def litC (s : Str) : RE := seqL (s.map chC)

/-- Counted repetition `p{n}` of a character class. -/
def repCls (p : Char → Bool) : Nat → RE
  | 0 => .eps
  | n + 1 => .seq (.cls p) (repCls p n)

/-- `p{min,max}` of a character class (greedy). -/
def repClsRange (p : Char → Bool) (min extra : Nat) : RE :=
  .seq (repCls p min) (repClsOpt extra)
where
  repClsOpt : Nat → RE
    | 0 => .eps
    | n + 1 => .opt (.seq (.cls p) (repClsOpt n))

/-- First (preferred) match of `re` anchored at the start of `s`, given
the preceding character. -/
def matchAt (re : RE) (prev : Option Char) (s : Str) : Option (Str × Option Char × Str) :=
  (mRE re prev s).head?

/-- Leftmost match: returns (index, matched text) like JS `regex.exec`. -/
def reFindAux (re : RE) (prev : Option Char) (i : Nat) : Str → Option (Nat × Str)
  | [] =>
    match matchAt re prev [] with
    | some x => some (i, x.1)
    | none => none
  | c :: cs =>
    match matchAt re prev (c :: cs) with
    | some x => some (i, x.1)
    | none => reFindAux re (some c) (i + 1) cs

/-- Leftmost match of `re` in `s`. -/
def reFind (re : RE) (s : Str) : Option (Nat × Str) :=
  reFindAux re none 0 s

/-- JS `re.test(s)`. -/
def reTest (re : RE) (s : Str) : Bool :=
  (reFind re s).isSome

/-- Anchored test (`/^.../.test(s)`). -/
def reTestStart (re : RE) (s : Str) : Bool :=
  (matchAt re none s).isSome

/-- JS `s.replace(re, f)` with a non-global regex: replace the leftmost
match using callback `f`. -/
def reReplaceFirstAux (re : RE) (f : Str → Str) (prev : Option Char) : Str → Str
  | [] =>
    match matchAt re prev [] with
    | some x => f x.1
    | none => []
  | c :: cs =>
    match matchAt re prev (c :: cs) with
    | some x => f x.1 ++ x.2.2
    | none => c :: reReplaceFirstAux re f (some c) cs

def reReplaceFirst (re : RE) (f : Str → Str) (s : Str) : Str :=
  reReplaceFirstAux re f none s

/-- JS global `s.replace(re, f)`: scan left to right, replacing each
non-overlapping match; an empty match consumes one input character, as
the JS engine advances `lastIndex` past empty matches. -/
def reReplaceAllAux (re : RE) (f : Str → Str) : Nat → Option Char → Str → Str
  | 0, _, s => s
  | fuel + 1, prev, s =>
    match matchAt re prev s with
    | some (m, p', rest) =>
      if m.isEmpty then
        match s with
        | [] => f []
        | c :: cs => f [] ++ c :: reReplaceAllAux re f fuel (some c) cs
      else
        f m ++ reReplaceAllAux re f fuel p' rest
    | none =>
      match s with
      | [] => []
      | c :: cs => c :: reReplaceAllAux re f fuel (some c) cs

def reReplaceAll (re : RE) (f : Str → Str) (s : Str) : Str :=
  reReplaceAllAux re f (s.length + 1) none s

/-- All non-overlapping matches with their indices (JS `matchAll` /
repeated `exec` with the `g` flag). -/
def reFindAllAux (re : RE) : Nat → Option Char → Nat → Str → List (Nat × Str)
  | 0, _, _, _ => []
  | fuel + 1, prev, i, s =>
    match matchAt re prev s with
    | some (m, p', rest) =>
      if m.isEmpty then
        match s with
        | [] => [(i, [])]
        | c :: cs => (i, ([] : Str)) :: reFindAllAux re fuel (some c) (i + 1) cs
      else
        (i, m) :: reFindAllAux re fuel p' (i + m.length) rest
    | none =>
      match s with
      | [] => []
      | c :: cs => reFindAllAux re fuel (some c) (i + 1) cs

/-- All matches of `re` in `s`, left to right. -/
def reFindAll (re : RE) (s : Str) : List (Nat × Str) :=
  reFindAllAux re (s.length + 1) none 0 s

/-- JS `s.split(re)`; the separator regexes in the source never match the
empty string. -/
def reSplitAux (re : RE) : Nat → Option Char → Str → List Str
  | 0, _, s => [s]
  | fuel + 1, prev, s =>
    match reSplitStep re prev [] s with
    | none => [s]
    | some (seg, p', rest) => seg :: reSplitAux re fuel p' rest
where
  /-- Find the next separator match: returns (segment before it, last
  char of the separator, rest after it). -/
  reSplitStep (re : RE) (prev : Option Char) (acc : Str) : Str → Option (Str × Option Char × Str)
    | [] =>
      match matchAt re prev [] with
      | some x => if x.1.isEmpty then none else some (acc.reverse, x.2.1, x.2.2)
      | none => none
    | c :: cs =>
      match matchAt re prev (c :: cs) with
      | some x =>
        if x.1.isEmpty then reSplitStep re (some c) (c :: acc) cs
        else some (acc.reverse, x.2.1, x.2.2)
      | none => reSplitStep re (some c) (c :: acc) cs

def reSplit (re : RE) (s : Str) : List Str :=
  reSplitAux re (s.length + 1) none s

/-- Remove every character belonging to `p` (JS `replace(/[...]/g, '')`). -/
def removeCls (p : Char → Bool) (s : Str) : Str :=
  s.filter (fun c => !(p c))

/-- JS `text.split(c)` for a single separator character. -/
def splitCh (sep : Char) : Str → List Str
  | [] => [[]]
  | c :: cs =>
    if c = sep then [] :: splitCh sep cs
    else
      match splitCh sep cs with
      | [] => [[c]]
      | h :: t => (c :: h) :: t

/-- `l.slice(a, b)` on lists. -/
def sliceL (l : List α) (a b : Nat) : List α := (l.take b).drop a

/-- Join a list of strings with a separator (JS `Array.prototype.join`). -/
def joinSep (sep : Str) (l : List Str) : Str := (l.intersperse sep).flatten

/-- Deduplicate keeping the first occurrence (JS `new Set(...)` iteration
order), with an explicit seen-set accumulator. -/
def dedupAux (seen : List Str) : List Str → List Str
  | [] => []
  | x :: xs =>
    if seen.contains x then dedupAux seen xs
    else x :: dedupAux (x :: seen) xs

def dedupF (l : List Str) : List Str := dedupAux [] l

/-! ## ResumeExtractor (`extractResumeData`, src/server.js lines 236-625)

The function is embedded as `Str → Option ProfileRecord`.  The two
places where the JavaScript indexes into an array whose non-emptiness is
only guaranteed by a guard (`lines[0]` under `lines.length > 0`, and
`titleParts[0]` after a split) are modelled with `Option`; `none` would
correspond to a thrown `TypeError`.  The claim that the function cannot
fail is then the statement that the result is always `some`. -/

structure Project where
  title : Str
  description : Str
  link : Str
  deriving Repr, DecidableEq

structure ProfileRecord where
  name : Str
  role : Str
  bio : Str
  summary : Str
  email : Str
  phone : Str
  github : Str
  linkedin : Str
  skills : List Str
  projects : List Project
  deriving Repr, DecidableEq

/-- The all-empty record the JS function starts from. -/
def emptyProfile : ProfileRecord :=
  { name := [], role := [], bio := [], summary := [], email := [], phone := []
    github := [], linkedin := [], skills := [], projects := [] }

/-- `[\w.-]` character class. -/
def wdd (c : Char) : Bool := isWordCh c || c = '.' || c = '-'

/-- `[a-zA-Z]`. -/
def isAl (c : Char) : Bool := ('a' ≤ c && c ≤ 'z') || ('A' ≤ c && c ≤ 'Z')

/-- `/[\w.-]+@[\w.-]+\.[a-zA-Z]{2,}/` (email, line 253). -/
def emailRE : RE :=
  seqL [.many1 wdd, chS '@', .many1 wdd, chS '.', .cls isAl, .cls isAl, .many isAl]

/-- `[-.\s]`. -/
def phoneSep (c : Char) : Bool := c = '-' || c = '.' || isSpaceCh c

/-- `/(\+?\d{1,3}[-.\s]?)?\(?\d{3}\)?[-.\s]?\d{3}[-.\s]?\d{4}/` (line 257). -/
def phoneRE : RE :=
  seqL [.opt (seqL [.opt (chS '+'), repClsRange isDigitCh 1 2, .opt (.cls phoneSep)]),
        .opt (chS '('), repCls isDigitCh 3, .opt (chS ')'), .opt (.cls phoneSep),
        repCls isDigitCh 3, .opt (.cls phoneSep), repCls isDigitCh 4]

/-- `[\w-]`. -/
def wdh (c : Char) : Bool := isWordCh c || c = '-'

/-- `/linkedin\.com\/in\/([\w-]+)/i`; the capture is recovered by
dropping the 16 characters of the literal part of the match. -/
def linkedinRE : RE := .seq (litC "linkedin.com/in/".toList) (.many1 wdh)

/-- `/github\.com\/([\w-]+)/i`; the capture drops 11 literal chars. -/
def githubRE : RE := .seq (litC "github.com/".toList) (.many1 wdh)

/-- Alternatives of the anchored `sectionHeaders` regex (line 269). -/
def sectionHeaderWords : List Str :=
  ["summary", "about", "profile", "objective", "experience", "education",
   "skills", "projects", "work", "certif", "contact", "interests", "hobbies",
   "achievements", "awards", "languages", "references"].map String.toList

/-- `sectionHeaders.test(s)`: anchored case-insensitive alternation of
plain literals, i.e. `s` starts with one of the words. -/
def sectionHeadersTest (s : Str) : Bool :=
  sectionHeaderWords.any (fun w => startsWithCI s w)

/-- Name-pass cleaning `line.replace(/[^\w\s.-]/g, '').trim()`. -/
def nameClean (l : Str) : Str :=
  trimS (removeCls (fun c => !(isWordCh c || isSpaceCh c || c = '.' || c = '-')) l)

/-- `/(http|www\.|\.com|\.org)/i.test(line)`. -/
def urlLike (l : Str) : Bool :=
  containsCI "http".toList l || containsCI "www.".toList l ||
  containsCI ".com".toList l || containsCI ".org".toList l

/-- `/phone|email|address|linkedin|github/i.test(line)`. -/
def contactWord (l : Str) : Bool :=
  containsCI "phone".toList l || containsCI "email".toList l ||
  containsCI "address".toList l || containsCI "linkedin".toList l ||
  containsCI "github".toList l

/-- `\s+` separator used for the word count `cleaned.split(/\s+/)`. -/
def wsRE : RE := .many1 isSpaceCh

/-- The acceptance test of the name scan (lines 273-283); returns the
cleaned candidate when the line qualifies. -/
def nameCand (line : Str) : Option Str :=
  let cleaned := nameClean line
  if 3 ≤ cleaned.length && cleaned.length ≤ 50 &&
     !(sectionHeadersTest cleaned) &&
     !(cleaned.any isDigitCh) &&
     !(line.any (fun c => c = '@')) &&
     !(urlLike line) &&
     !(contactWord line) &&
     2 ≤ (reSplit wsRE cleaned).length && (reSplit wsRE cleaned).length ≤ 5
  then some cleaned else none

/-- The name pass (lines 270-291): first acceptable candidate among the
first 8 lines, else the cleaned first line truncated to 50.  `lines[0]`
is modelled by `get?`. -/
def namePass (lines : List Str) : Option Str :=
  match (lines.take 8).findSome? nameCand with
  | some nm => some nm
  | none =>
    if lines.length > 0 then
      (lines.get? 0).map (fun l0 =>
        takeS (trimS (removeCls (fun c => !(isWordCh c || isSpaceCh c)) l0)) 50)
    else some []

/-- `roleKeywords` (lines 294-300). -/
def roleKeywords : List Str :=
  ["Developer", "Engineer", "Designer", "Manager", "Analyst", "Architect",
   "Consultant", "Intern", "Scientist", "Researcher", "Administrator",
   "Lead", "Director", "Specialist", "Coordinator", "Programmer",
   "Full Stack", "Frontend", "Backend", "DevOps", "Data", "Machine Learning",
   "AI", "Software", "Web", "Mobile", "Cloud", "Security", "QA", "UI/UX"].map String.toList

/-- `/@|phone|http|www\./i.test(line)`. -/
def contactLike (l : Str) : Bool :=
  l.any (fun c => c = '@') || containsCI "phone".toList l ||
  containsCI "http".toList l || containsCI "www.".toList l

/-- `line.replace(/[•\-|]/g, '').trim()`. -/
def roleClean (l : Str) : Str :=
  trimS (removeCls (fun c => c = '•' || c = '-' || c = '|') l)

/-- The raw line chosen by the role pass (lines 301-320): first of the
first 10 lines that is not a section header, is not literally equal to
the detected name, is not contact-like, contains a role keyword
case-insensitively, and whose cleaned form has length in (5, 120). -/
def rolePick (lines : List Str) (nm : Str) : Option Str :=
  (lines.take 10).find? (fun line =>
    !(sectionHeadersTest line) && line ≠ nm && !(contactLike line) &&
    (roleKeywords.any (fun kw => containsSub (lowS kw) (lowS line))) &&
    5 < (roleClean line).length && (roleClean line).length < 120)

/-- The role value produced by the role pass. -/
def rolePass (lines : List Str) (nm : Str) : Str :=
  match rolePick lines nm with
  | some l => roleClean l
  | none => []

/-- `litC` over a Lean string literal, for brevity. -/
def litCs (s : String) : RE := litC s.toList

/-- Two case-insensitive words separated by `\s*`. -/
def sp2 (a b : String) : RE := seqL [litCs a, .many isSpaceCh, litCs b]

/-- The anchored `sectionPattern` regex (line 323). -/
def sectionPatternRE : RE :=
  altL [litCs "summary", sp2 "about" "me", litCs "about", litCs "profile",
        litCs "objective", sp2 "professional" "summary", sp2 "career" "summary",
        litCs "experience", sp2 "work" "experience", sp2 "professional" "experience",
        litCs "education", litCs "academic", litCs "skills", sp2 "technical" "skills",
        sp2 "core" "competencies", litCs "projects", sp2 "personal" "projects",
        litCs "certif", litCs "contact", litCs "interests", litCs "hobbies",
        litCs "achievements", litCs "awards", litCs "languages", litCs "references",
        litCs "publications"]

/-- `sectionPattern.test(clean)`. -/
def sectionPatternTest (s : Str) : Bool := reTestStart sectionPatternRE s

/-- `[:\-•|#*_]` header punctuation class. -/
def hdrPunct (c : Char) : Bool :=
  c = ':' || c = '-' || c = '•' || c = '|' || c = '#' || c = '*' || c = '_'

/-- `lines[i].replace(/[:\-•|#*_]/g, '').trim()` (without lower-casing,
as used in `getSectionEnd`). -/
def hdrClean (l : Str) : Str := trimS (removeCls hdrPunct l)

/-- The lower-cased form used in `findSection`. -/
def hdrCleanLow (l : Str) : Str := lowS (hdrClean l)

/-- Does `s` end with `p`? -/
def endsWithS (s p : Str) : Bool := startsWithS s.reverse p.reverse

/-- `findSection(keywords)` (lines 325-335); keywords are lower-case at
every call site.  Returns the index of the first line whose cleaned
lower-cased form equals a keyword, starts with `kw + ' '`, or ends with
`' ' + kw`. -/
def findSection (lines : List Str) (kws : List Str) : Option Nat :=
  (List.range lines.length).find? (fun i =>
    let clean := hdrCleanLow (lines.getD i [])
    kws.any (fun kw => clean = kw || startsWithS clean (kw ++ [' ']) ||
                       endsWithS clean ([' '] ++ kw)))

/-- `getSectionEnd(startIdx)` (lines 337-345). -/
def getSectionEnd (lines : List Str) (startIdx : Nat) : Nat :=
  match (List.range' (startIdx + 1) (lines.length - (startIdx + 1))).find?
      (fun i =>
        let clean := hdrClean (lines.getD i [])
        sectionPatternTest clean && clean.length < 40) with
  | some i => i
  | none => min (startIdx + 30) lines.length

/-- `getSectionText(startIdx)` (lines 347-350). -/
def getSectionText (lines : List Str) (startIdx : Nat) : Str :=
  trimS (joinSep [' '] (sliceL lines (startIdx + 1) (getSectionEnd lines startIdx)))

/-- Collapse whitespace runs: `replace(/\s+/g, ' ')`. -/
def collapseWs (s : Str) : Str :=
  reReplaceAll (RE.many1 isSpaceCh) (fun _ => [' ']) s

/-- The summary-section branch of the bio pass (lines 353-365): returns
the bio text, or `[]` when the cleaned section text is too short. -/
def bioFromSection (lines : List Str) (idx : Nat) : Str :=
  let cleaned := trimS ((collapseWs (getSectionText lines idx)).dropWhile
      (fun c => isSpaceCh c || c = '•' || c = '-' || c = ':'))
  if 20 < cleaned.length then takeS cleaned 500 else []

/-- The paragraph-like fallback of the bio pass (lines 367-375). -/
def bioFallback (lines : List Str) : Str :=
  match (sliceL lines 1 15).find? (fun line =>
      80 < line.length && !(sectionHeadersTest line) &&
      !(line.any (fun c => c = '@'))) with
  | some l => takeS l 500
  | none => []

/-- `\b` followed by a case-insensitive word followed by `\b`. -/
def bw (s : String) : RE := seqL [.wb, litCs s, .wb]

/-- `[,;|•\n]`, the delimiter class of the `Go` lookahead. -/
def goDelim (c : Char) : Bool :=
  c = ',' || c = ';' || c = '|' || c = '•' || c = '\n'

/-- `[,;|•\n(]`, the delimiter class of the `R` lookahead. -/
def rDelim (c : Char) : Bool := goDelim c || c = '('

/-- `skillDefinitions` (lines 388-513): the static vocabulary of
(label, pattern) pairs, in source order. -/
def skillDefs : List (Str × RE) :=
  [("JavaScript".toList, bw "javascript"),
   ("TypeScript".toList, bw "typescript"),
   ("Python".toList, bw "python"),
   ("Java".toList, seqL [.wb, litCs "java", .wb, .nla (seqL [.many isSpaceCh, litCs "script"])]),
   ("C++".toList, seqL [.wb, chC 'c', chS '+', chS '+']),
   ("C#".toList, seqL [.wb, chC 'c', chS '#']),
   ("C".toList, seqL [.wb, chC 'c', .wb, .nla (altL [chS '+', chS '#', chC 's', chC 'o'])]),
   ("PHP".toList, bw "php"),
   ("Ruby".toList, bw "ruby"),
   ("Go".toList, altL [bw "golang",
      seqL [.wb, litCs "go", .many isSpaceCh, litCs "lang", .wb],
      seqL [.wb, litCs "go", .wb, .la (seqL [.many isSpaceCh, .cls goDelim])]]),
   ("Rust".toList, bw "rust"),
   ("Swift".toList, bw "swift"),
   ("Kotlin".toList, bw "kotlin"),
   ("R".toList, seqL [.wb, chC 'r', .wb,
      .la (altL [seqL [.many isSpaceCh, .cls rDelim],
                 seqL [.many1 isSpaceCh, litCs "programming"],
                 seqL [.many1 isSpaceCh, litCs "language"],
                 seqL [.many1 isSpaceCh, litCs "studio"]])]),
   ("MATLAB".toList, bw "matlab"),
   ("Dart".toList, bw "dart"),
   ("Scala".toList, bw "scala"),
   ("Perl".toList, bw "perl"),
   ("Haskell".toList, bw "haskell"),
   ("React".toList, seqL [.wb, litCs "react", .opt (seqL [.opt (chS '.'), litCs "js"]), .wb]),
   ("Angular".toList, seqL [.wb, litCs "angular", .opt (seqL [.opt (chS '.'), litCs "js"]), .wb]),
   ("Vue.js".toList, seqL [.wb, litCs "vue", .opt (seqL [.opt (chS '.'), litCs "js"]), .wb]),
   ("Next.js".toList, seqL [.wb, litCs "next", .opt (seqL [.opt (chS '.'), litCs "js"]), .wb]),
   ("Svelte".toList, bw "svelte"),
   ("HTML".toList, seqL [.wb, litCs "html", .opt (chS '5'), .wb]),
   ("CSS".toList, seqL [.wb, litCs "css", .opt (chS '3'), .wb]),
   ("Tailwind CSS".toList, bw "tailwind"),
   ("Bootstrap".toList, bw "bootstrap"),
   ("SASS".toList, altL [bw "sass", bw "scss"]),
   ("jQuery".toList, bw "jquery"),
   ("Node.js".toList, seqL [.wb, litCs "node", .opt (seqL [.opt (chS '.'), litCs "js"]), .wb]),
   ("Express".toList, seqL [.wb, litCs "express", .opt (seqL [.opt (chS '.'), litCs "js"]), .wb]),
   ("Django".toList, bw "django"),
   ("Flask".toList, bw "flask"),
   ("FastAPI".toList, bw "fastapi"),
   ("Spring Boot".toList, seqL [.wb, litCs "spring", .many isSpaceCh, litCs "boot", .wb]),
   ("Spring".toList, seqL [.wb, litCs "spring", .wb, .nla (seqL [.many isSpaceCh, litCs "boot"])]),
   ("Laravel".toList, bw "laravel"),
   ("ASP.NET".toList, seqL [.wb, litCs "asp", .opt (chS '.'), litCs "net", .wb]),
   ("Ruby on Rails".toList, altL [bw "rails", bw "ruby on rails"]),
   ("MongoDB".toList, altL [bw "mongodb", bw "mongo"]),
   ("PostgreSQL".toList, seqL [.wb, litCs "postgres", .opt (litCs "ql"), .wb]),
   ("MySQL".toList, bw "mysql"),
   ("SQLite".toList, bw "sqlite"),
   ("SQL".toList, seqL [.wb, litCs "sql", .wb, .nla (litCs "ite")]),
   ("Redis".toList, bw "redis"),
   ("Firebase".toList, bw "firebase"),
   ("Supabase".toList, bw "supabase"),
   ("DynamoDB".toList, bw "dynamodb"),
   ("Cassandra".toList, bw "cassandra"),
   ("Oracle".toList, bw "oracle"),
   ("AWS".toList, bw "aws"),
   ("Azure".toList, bw "azure"),
   ("GCP".toList, altL [bw "gcp", bw "google cloud"]),
   ("Docker".toList, bw "docker"),
   ("Kubernetes".toList, altL [bw "kubernetes", bw "k8s"]),
   ("Jenkins".toList, bw "jenkins"),
   ("CI/CD".toList, seqL [.wb, litCs "ci", .opt (chS '/'), litCs "cd", .wb]),
   ("Terraform".toList, bw "terraform"),
   ("Ansible".toList, bw "ansible"),
   ("Nginx".toList, bw "nginx"),
   ("Heroku".toList, bw "heroku"),
   ("Vercel".toList, bw "vercel"),
   ("Netlify".toList, bw "netlify"),
   ("Git".toList, seqL [.wb, litCs "git", .wb, .nla (altL [litCs "hub", litCs "lab"])]),
   ("GitHub".toList, bw "github"),
   ("GitLab".toList, bw "gitlab"),
   ("Linux".toList, bw "linux"),
   ("Figma".toList, bw "figma"),
   ("Photoshop".toList, bw "photoshop"),
   ("VS Code".toList, altL [seqL [.wb, litCs "vs", .many isSpaceCh, litCs "code", .wb],
                            bw "visual studio code"]),
   ("Postman".toList, bw "postman"),
   ("JIRA".toList, bw "jira"),
   ("Webpack".toList, bw "webpack"),
   ("Vite".toList, bw "vite"),
   ("Machine Learning".toList, seqL [.wb, litCs "machine", .many isSpaceCh, litCs "learning", .wb]),
   ("Deep Learning".toList, seqL [.wb, litCs "deep", .many isSpaceCh, litCs "learning", .wb]),
   ("TensorFlow".toList, bw "tensorflow"),
   ("PyTorch".toList, bw "pytorch"),
   ("Scikit-Learn".toList, altL [bw "scikit", bw "sklearn"]),
   ("Pandas".toList, bw "pandas"),
   ("NumPy".toList, bw "numpy"),
   ("Data Science".toList, seqL [.wb, litCs "data", .many isSpaceCh, litCs "science", .wb]),
   ("NLP".toList, altL [bw "nlp", bw "natural language processing"]),
   ("Computer Vision".toList, seqL [.wb, litCs "computer", .many isSpaceCh, litCs "vision", .wb]),
   ("OpenCV".toList, bw "opencv"),
   ("Tableau".toList, bw "tableau"),
   ("Power BI".toList, seqL [.wb, litCs "power", .many isSpaceCh, litCs "bi", .wb]),
   ("Excel".toList, bw "excel"),
   ("Flutter".toList, bw "flutter"),
   ("React Native".toList, seqL [.wb, litCs "react", .many isSpaceCh, litCs "native", .wb]),
   ("Android".toList, bw "android"),
   ("iOS".toList, bw "ios"),
   ("GraphQL".toList, bw "graphql"),
   ("REST API".toList, altL [seqL [.wb, litCs "rest", .many isSpaceCh, .opt (litCs "ful"),
                                   .many isSpaceCh, litCs "api", .wb],
                             bw "rest"]),
   ("WebSocket".toList, bw "websocket"),
   ("Blockchain".toList, bw "blockchain"),
   ("Solidity".toList, bw "solidity"),
   ("Web3".toList, bw "web3"),
   ("Agile".toList, bw "agile"),
   ("Scrum".toList, bw "scrum"),
   ("Three.js".toList, seqL [.wb, litCs "three", .opt (chS '.'), litCs "js", .wb]),
   ("Socket.io".toList, seqL [.wb, litCs "socket", .opt (chS '.'), litCs "io", .wb]),
   ("Mongoose".toList, bw "mongoose"),
   ("Prisma".toList, bw "prisma"),
   ("OAuth".toList, bw "oauth"),
   ("JWT".toList, bw "jwt")]

/-- The raw-token fallback of the skills pass (lines 525-533).  Since
the filter keeps only tokens of length > 1, `/^\d+$/.test(s)` is
`s.all isDigitCh` there. -/
def rawSepCl (c : Char) : Bool :=
  c = ',' || c = '\n' || c = '•' || c = '|' || c = ':' || c = ';' || c = '/'

def rawSkills (lines : List Str) (idx : Nat) : List Str :=
  let endIdx := getSectionEnd lines idx
  let rawText := joinSep ['\n'] (sliceL lines (idx + 1) endIdx)
  let toks := (reSplit (RE.cls rawSepCl) rawText).map (fun s =>
    trimS (removeCls (fun c =>
      !(isWordCh c || isSpaceCh c || c = '.' || c = '#' || c = '+' || c = '-')) s))
  (dedupF (toks.filter (fun s =>
    1 < s.length && s.length < 35 && !(s.all isDigitCh)))).take 20

/-! ### Projects pass (lines 536-617) -/

/-- The bullet class `[•\-•‣◦⁃∙]` stripped from
every project line.  Note: it contains the plain hyphen `-`. -/
def bulletCl (c : Char) : Bool :=
  c = '•' || c = '-' || c = '‣' || c = '◦' || c = '⁃' || c = '∙'

/-- `[|–—]`, the title separator class. -/
def sepChC (c : Char) : Bool := c = '|' || c = '–' || c = '—'

/-- `/\s*[|–—]\s*/`, the split pattern for title lines. -/
def titleSepRE : RE := seqL [.many isSpaceCh, .cls sepChC, .many isSpaceCh]

/-- `/https?:\/\/[^\s)]+/`. -/
def linkRE : RE :=
  seqL [litS "http".toList, .opt (chS 's'), litS "://".toList,
        .many1 (fun c => !(isSpaceCh c || c = ')'))]

/-- The leading-verb exclusion list of `isLikelyTitle`. -/
def titleVerbs : List Str :=
  ["Built", "Developed", "Created", "Implemented", "Designed", "Used",
   "Utilized", "Leveraged", "Integrated", "Achieved", "Reduced", "Improved",
   "Managed", "Led", "Collaborated", "Conducted"].map String.toList

/-- `isLikelyTitle` (lines 550-575). -/
def isLikelyTitle (stripped : Str) : Bool :=
  stripped.length < 80 &&
  titleVerbs.all (fun v => !(startsWithS stripped v)) &&
  !(match stripped.head? with | some c => isDigitCh c | none => false) &&
  (stripped.any sepChC ||
   (stripped.length < 60 &&
    (match stripped.head? with | some c => 'A' ≤ c && c ≤ 'Z' | none => false) &&
    !(containsSub ". ".toList stripped)))

/-- One iteration of the project-line loop (lines 544-605).  The state is
the accumulating project and the pushed list; `titleParts[0]` is modelled
with `get?`. -/
def projStep (st : Option Project × List Project) (line : Str) :
    Option (Option Project × List Project) :=
  let stripped := trimS (removeCls bulletCl line)
  if stripped.isEmpty then some st
  else if isLikelyTitle stripped && 3 < stripped.length then
    let acc' :=
      match st.1 with
      | some p => if p.title ≠ [] then st.2 ++ [p] else st.2
      | none => st.2
    let titleParts := reSplit titleSepRE stripped
    (titleParts.get? 0).map (fun t0 =>
      (some { title := takeS (trimS t0) 100,
              description :=
                if 1 < titleParts.length then trimS (joinSep [' '] (titleParts.drop 1))
                else [],
              link := [] },
       acc'))
  else
    match st.1 with
    | none => some st
    | some p =>
      let p1 :=
        match reFind linkRE stripped with
        | some x => { p with link := x.2 }
        | none => p
      let descLine := trimS (reReplaceAll linkRE (fun _ => []) stripped)
      let p2 :=
        if 5 < descLine.length then
          { p1 with description :=
              p1.description ++ (if p1.description ≠ [] then ". ".toList else []) ++ descLine }
        else p1
      some (some p2, st.2)

/-- Keywords of the projects `findSection` call (line 536). -/
def projKws : List Str :=
  ["projects", "personal projects", "academic projects", "key projects",
   "notable projects", "selected projects"].map String.toList

/-- The whole projects pass. -/
def projectsPass (lines : List Str) : Option (List Project) :=
  match findSection lines projKws with
  | none => some []
  | some idx =>
    let pend := getSectionEnd lines idx
    let pl := sliceL lines (idx + 1) pend
    (pl.foldlM projStep (none, [])).map (fun st =>
      let projs := st.2 ++
        (match st.1 with
         | some p => if p.title ≠ [] then [p] else []
         | none => [])
      (projs.take 5).map (fun p => { p with description := takeS p.description 300 }))

/-- Keywords of the summary and skills `findSection` calls. -/
def summaryKws : List Str :=
  ["summary", "about me", "about", "profile", "objective",
   "professional summary", "career summary", "career objective"].map String.toList

def skillsKws : List Str :=
  ["skills", "technical skills", "core competencies", "technologies",
   "tech stack", "tools"].map String.toList

/-- `text.split('\n').map(l => l.trim()).filter(l => l.length > 0)` (line 250). -/
def linesOf (text : Str) : List Str :=
  ((splitCh '\n' text).map trimS).filter (fun l => 0 < l.length)

/-- `extractResumeData` (src/server.js lines 236-625). -/
def extractResumeData (text : Str) : Option ProfileRecord :=
  let lines := linesOf text
  let email := match reFind emailRE text with | some x => x.2 | none => []
  let phone := match reFind phoneRE text with | some x => x.2 | none => []
  let linkedin := match reFind linkedinRE text with | some x => x.2.drop 16 | none => []
  let github := match reFind githubRE text with | some x => x.2.drop 11 | none => []
  (namePass lines).bind (fun nm =>
    let role := rolePass lines nm
    let bio0 := match findSection lines summaryKws with
      | some i => bioFromSection lines i
      | none => []
    let bio1 := if bio0 = [] then bioFallback lines else bio0
    let skillsIdx := findSection lines skillsKws
    let skillsText := match skillsIdx with
      | some i => joinSep [' '] (sliceL lines i (getSectionEnd lines i))
      | none => text
    let matched := (skillDefs.filter (fun d => reTest d.2 skillsText)).map Prod.fst
    let skills :=
      if matched.isEmpty then
        match skillsIdx with
        | some i => rawSkills lines i
        | none => []
      else matched
    (projectsPass lines).map (fun projects =>
      { name := nm, role := role, bio := bio1, summary := bio1, email := email,
        phone := phone, github := github, linkedin := linkedin,
        skills := skills, projects := projects }))

/-! ## BalancedRegionFinder (`findFullSection`, src/server.js lines 751-779) -/

/-- The `MatchedRegion` record returned by `findFullSection`. -/
structure Region where
  full : Str
  inner : Str
  start : Nat
  endIdx : Nat
  openTag : Str
  closeTag : Str
  deriving Repr, DecidableEq

/-- `openTag.match(/^<(\w+)/i)`: the leading word run after `<`. -/
def tagNameOf (openTag : Str) : Option Str :=
  match openTag with
  | '<' :: rest =>
    let w := rest.takeWhile isWordCh
    if w.isEmpty then none else some w
  | _ => none

/-- The scan regex `` `<(/?)${tagName}(?=\s|>)[^>]*>` `` (line 760),
case-insensitive; `name` is passed in lower case. -/
def scanRE (name : Str) : RE :=
  seqL [chS '<', .opt (chS '/'), litC name,
        .la (.cls (fun c => isSpaceCh c || c = '>')),
        .many (fun c => !(c = '>')), chS '>']

/-- `hit[1] === '/'`: the optional group captured the slash. -/
def isCloseTag (m : Str) : Bool := startsWithS m "</".toList

/-- The depth-scanning loop of `findFullSection` (lines 762-777): find
successive scan-regex matches, ignore self-closing hits, track the
nesting depth, and stop at the hit that brings the depth to 0, returning
(absolute hit start, absolute hit end, hit text). -/
def sectionScan (re : RE) : Nat → Option Char → Nat → Nat → Str → Option (Nat × Nat × Str)
  | 0, _, _, _, _ => none
  | fuel + 1, prev, i, depth, s =>
    match matchAt re prev s with
    | some (m, p', rest) =>
      if m.isEmpty then
        match s with
        | [] => none
        | c :: cs => sectionScan re fuel (some c) (i + 1) depth cs
      else if endsWithS m "/>".toList then
        sectionScan re fuel p' (i + m.length) depth rest
      else
        let depth' := if isCloseTag m then depth - 1 else depth + 1
        if depth' = 0 then some (i, i + m.length, m)
        else sectionScan re fuel p' (i + m.length) depth' rest
    | none =>
      match s with
      | [] => none
      | c :: cs => sectionScan re fuel (some c) (i + 1) depth cs

/-- `findFullSection(source, openTagRegex)`: the open-tag matcher is
abstracted as a function returning the leftmost match index and text,
exactly what `regex.exec` with `lastIndex = 0` yields. -/
def findFullSection (matcher : Str → Option (Nat × Str)) (source : Str) : Option Region :=
  match matcher source with
  | none => none
  | some (startIdx, openTag) =>
    match tagNameOf openTag with
    | none => none
    | some name =>
      let scanStart := startIdx + openTag.length
      let tail := source.drop scanStart
      match sectionScan (scanRE (lowS name)) (tail.length + 1)
          ((source.take scanStart).getLast?) scanStart 1 tail with
      | some (hitStart, hitEnd, closeTag) =>
        some { full := sliceS source startIdx hitEnd,
               inner := sliceS source scanStart hitStart,
               start := startIdx, endIdx := hitEnd,
               openTag := openTag, closeTag := closeTag }
      | none => none

/-- Use a regex (with the `g` flag, `lastIndex = 0`) as an open-tag
matcher: leftmost match. -/
def reMatcher (re : RE) : Str → Option (Nat × Str) := reFind re

/-- Use an anchored regex (`/^.../g`) as an open-tag matcher. -/
def anchoredMatcher (re : RE) : Str → Option (Nat × Str) :=
  fun s => (matchAt re none s).map (fun x => (0, x.1))

/-! Specification-side rendering of the balanced-region contract, from
the spec's words (§4.1): list every occurrence of `<name ...>` / `</name>`
after the open tag, ignore self-closing forms, run a depth counter from
1, and complete at the first occurrence where the depth reaches 0. -/

/-- Running-depth scan over an occurrence list. -/
def depthTrace : Nat → List (Nat × Str) → Option (Nat × Str)
  | _, [] => none
  | depth, (i, m) :: rest =>
    let depth' := if isCloseTag m then depth - 1 else depth + 1
    if depth' = 0 then some (i, m) else depthTrace depth' rest

/-- `findFullSection` as described by the spec: same head, but the scan
is phrased as a depth trace over the list of all tag occurrences. -/
def findFullSectionSpec (matcher : Str → Option (Nat × Str)) (source : Str) : Option Region :=
  match matcher source with
  | none => none
  | some (startIdx, openTag) =>
    match tagNameOf openTag with
    | none => none
    | some name =>
      let scanStart := startIdx + openTag.length
      let tail := source.drop scanStart
      let occs := (reFindAllAux (scanRE (lowS name)) (tail.length + 1)
          ((source.take scanStart).getLast?) scanStart tail).filter
          (fun x => !(endsWithS x.2 "/>".toList))
      match depthTrace 1 occs with
      | some (i, m) =>
        some { full := sliceS source startIdx (i + m.length),
               inner := sliceS source scanStart i,
               start := startIdx, endIdx := i + m.length,
               openTag := openTag, closeTag := m }
      | none => none

/-! ## MarkupCloner (`convertHTMLToTemplate`, src/server.js lines 782-1152)

Placeholder tokens (braces written with escapes). -/

def tokName3 : Str := "\x7b\x7b\x7bname\x7d\x7d\x7d".toList
def tokName : Str := "\x7b\x7bname\x7d\x7d".toList
def tokRole : Str := "\x7b\x7brole\x7d\x7d".toList
def tokBio : Str := "\x7b\x7bbio\x7d\x7d".toList
def tokThis : Str := "\x7b\x7bthis\x7d\x7d".toList
def tokThisTitle : Str := "\x7b\x7bthis.title\x7d\x7d".toList
def tokThisDesc : Str := "\x7b\x7bthis.description\x7d\x7d".toList
def tokEmail : Str := "\x7b\x7bemail\x7d\x7d".toList
def tokGhUrl : Str := "\x7b\x7bgithubUrl\x7d\x7d".toList
def tokLiUrl : Str := "\x7b\x7blinkedinUrl\x7d\x7d".toList
def tokHashEach : Str := "\x7b\x7b#each".toList
def tokEachProjOpen : Str := "\x7b\x7b#each projects\x7d\x7d".toList
def tokEachClose : Str := "\x7b\x7b/each\x7d\x7d".toList
def tokEachSkills : Str := "\x7b\x7b#each (split skills \",\")\x7d\x7d".toList

/-- The `detectedSections` record. -/
structure Detected where
  name : Bool
  role : Bool
  bio : Bool
  skills : Bool
  projects : Bool
  email : Bool
  social : Bool
  deriving Repr, DecidableEq

def allFalse : Detected :=
  { name := false, role := false, bio := false, skills := false,
    projects := false, email := false, social := false }

/-- Pipeline state: current template text plus detection flags. -/
structure CState where
  tpl : Str
  d : Detected
  deriving Repr, DecidableEq

/-- `["']`. -/
def quoteCl (c : Char) : Bool := c = '"' || c = '\''

/-- `[^>]`. -/
def notGt (c : Char) : Bool := !(c = '>')

/-- `[^"']`. -/
def notQuote (c : Char) : Bool := !(quoteCl c)

/-- JS `.` (anything but a line terminator, restricted to ASCII). -/
def dotCl (c : Char) : Bool := !(c = '\n' || c = '\r')

/-- `[\s\S]`. -/
def anyCl (_ : Char) : Bool := true

/-- `/<script[^>]*>[\s\S]*?<\/script>/gi`. -/
def scriptRE : RE :=
  seqL [litCs "<script", .many notGt, chS '>', .manyL anyCl, litCs "</script>"]

/-- `/<link[^>]*rel=["']stylesheet["'][^>]*>/gi`. -/
def linkRelRE : RE :=
  seqL [litCs "<link", .many notGt, litCs "rel=", .cls quoteCl,
        litCs "stylesheet", .cls quoteCl, .many notGt, chS '>']

/-- `/<link[^>]*href=["'][^"']*\.css[^"']*["'][^>]*>/gi`. -/
def linkCssRE : RE :=
  seqL [litCs "<link", .many notGt, litCs "href=", .cls quoteCl,
        .many notQuote, litCs ".css", .many notQuote, .cls quoteCl,
        .many notGt, chS '>']

/-- `/<style[^>]*>[\s\S]*?<\/style>/gi`. -/
def styleRE : RE :=
  seqL [litCs "<style", .many notGt, chS '>', .manyL anyCl, litCs "</style>"]

/-- Stages 1-2: strip scripts, stylesheet links and style blocks. -/
def stripScripts (tpl : Str) : Str := reReplaceAll scriptRE (fun _ => []) tpl

def stripStyles (tpl : Str) : Str :=
  reReplaceAll styleRE (fun _ => [])
    (reReplaceAll linkCssRE (fun _ => [])
      (reReplaceAll linkRelRE (fun _ => []) tpl))

/-- `/(src|href)=["'](?!data:|https?:|\/\/|#|\{\{)(\/?[^"']+)["']/gi`. -/
def urlRewriteRE : RE :=
  seqL [altL [litCs "src", litCs "href"], chS '=', .cls quoteCl,
        .nla (altL [litCs "data:", seqL [litCs "http", .opt (chC 's'), chS ':'],
                    litS "//".toList, chS '#', litS "\x7b\x7b".toList]),
        .opt (chS '/'), .many1 notQuote, .cls quoteCl]

/-- Model of the JS builtin `new URL(urlPath, origin).href` restricted to
plain path resolution (no `..`, query or fragment normalisation); the
claims under verification do not depend on URL normalisation details.
The JS `try`/`catch` around it returns the match unchanged on error;
this model never errs. -/
def urlResolve (origin urlPath : Str) : Str :=
  match urlPath with
  | '/' :: _ => origin ++ urlPath
  | _ => origin ++ ['/'] ++ urlPath

/-- Stage 3: rewrite relative src/href attributes against the origin.
Group 1 (`src`/`href`, original case) and group 2 (the quoted path) are
recovered from the match text. -/
def rewriteUrls (origin tpl : Str) : Str :=
  reReplaceAll urlRewriteRE (fun m =>
    let attrLen := if startsWithCI m "src".toList then 3 else 4
    let attr := m.take attrLen
    let urlPath := sliceS m (attrLen + 2) (m.length - 1)
    attr ++ "=\"".toList ++ urlResolve origin urlPath ++ ['"']) tpl

def cssLinkStr : Str := "<link rel=\"stylesheet\" href=\"style.css\">".toList

/-- Stage 4: inject the local stylesheet link. -/
def injectCss (tpl : Str) : Str :=
  if containsSub "</head>".toList tpl then
    replaceFirstSub "</head>".toList (cssLinkStr ++ "\n</head>".toList) tpl
  else cssLinkStr ++ ['\n'] ++ tpl

/-- `/<h1([^>]*)>([\s\S]*?)<\/h1>/i`. -/
def h1RE : RE :=
  seqL [litCs "<h1", .many notGt, chS '>', .manyL anyCl, litCs "</h1>"]

/-- `s.replace(/<[^>]+>/g, '')`. -/
def stripTags (s : Str) : Str :=
  reReplaceAll (seqL [chS '<', .many1 notGt, chS '>']) (fun _ => []) s

/-- Drop the last `n` characters. -/
def dropLastN (n : Nat) (l : Str) : Str := l.take (l.length - n)

/-- Recover the attribute and inner groups of an `<h1...>...</h1>` match. -/
def h1Decomp (m : Str) : Str × Str :=
  let attrs := (m.drop 3).takeWhile notGt
  (attrs, dropLastN 5 (m.drop (3 + attrs.length + 1)))

/-- `origPersonName` (lines 810-811). -/
def origNameOf (tpl : Str) : Str :=
  match reFind h1RE tpl with
  | some x => trimS (stripTags (h1Decomp x.2).2)
  | none => []

/-- Stage 5 (lines 814-821): replace the first `<h1>` content with
`{{{name}}}` when its stripped text length is in (1, 80). -/
def nameStage (st : CState) : CState :=
  match reFind h1RE st.tpl with
  | none => st
  | some x =>
    let dec := h1Decomp x.2
    let content := trimS (stripTags dec.2)
    if 1 < content.length && content.length < 80 then
      { tpl := replaceFirstSub x.2
          ("<h1".toList ++ dec.1 ++ ['>'] ++ tokName3 ++ "</h1>".toList) st.tpl,
        d := { st.d with name := true } }
    else st

/-- Literal global substring replacement (the JS
`new RegExp(escapedName, 'g')` replace of lines 824-828). -/
def replaceAllSub (pat repl : Str) (s : Str) : Str :=
  go (s.length + 1) s
where
  go : Nat → Str → Str
    | 0, s => s
    | _ + 1, [] => []
    | fuel + 1, c :: cs =>
      if startsWithS (c :: cs) pat && !(pat.isEmpty) then
        repl ++ go fuel ((c :: cs).drop pat.length)
      else c :: go fuel cs

/-- Stage 6a: replace every literal occurrence of the original person's
name with `{{name}}` (only when the name has length > 2). -/
def cleanPersonName (origName tpl : Str) : Str :=
  if 2 < origName.length then replaceAllSub origName tokName tpl else tpl

/-- `/<title[^>]*>[\s\S]*?<\/title>/i`. -/
def titleRE : RE :=
  seqL [litCs "<title", .many notGt, chS '>', .manyL anyCl, litCs "</title>"]

/-- Stage 6b: replace the `<title>` unconditionally. -/
def titleReplace (tpl : Str) : Str :=
  reReplaceFirst titleRE
    (fun _ => "<title>".toList ++ tokName ++ " - Portfolio</title>".toList) tpl

/-! ### Stage 7: role/subtitle detection (lines 833-861) -/

/-- `/(<h2[^>]*>)([\s\S]*?)(<\/h2>)/gi`. -/
def h2RE : RE :=
  seqL [litCs "<h2", .many notGt, chS '>', .manyL anyCl, litCs "</h2>"]

/-- The subtitle/tagline pattern (second entry of `rolePatterns`). -/
def subtitleRE : RE :=
  seqL [chS '<', altL [litCs "p", litCs "span", litCs "div"], .many notGt,
        litCs "class=", .cls quoteCl, .many notQuote,
        altL [litCs "subtitle", litCs "tagline", litCs "title", litCs "role",
              litCs "headline", litCs "hero-text", litCs "intro-text"],
        .many notQuote, .cls quoteCl, .many notGt, chS '>',
        .manyL anyCl,
        litCs "</", altL [litCs "p", litCs "span", litCs "div"], chS '>']

/-- The `roleWords` vocabulary regex (line 845). -/
def roleWordsRE : RE :=
  altL [litCs "developer", litCs "engineer", litCs "designer", litCs "architect",
        litCs "analyst", litCs "student", litCs "intern", litCs "scientist",
        litCs "specialist", litCs "manager", litCs "lead", litCs "consultant",
        litCs "programmer", litCs "freelancer",
        seqL [litCs "full", .opt (.cls dotCl), litCs "stack"],
        seqL [litCs "front", .opt (.cls dotCl), litCs "end"],
        seqL [litCs "back", .opt (.cls dotCl), litCs "end"],
        litCs "software", litCs "web", litCs "mobile", litCs "data",
        litCs "ux", litCs "ui"]

/-- Split an element match into (open tag, inner text, close tag), where
the close tag is the trailing `closeLen` characters. -/
def tagDecomp (closeLen : Nat) (m : Str) : Str × Str × Str :=
  let openT := (m.takeWhile notGt) ++ ['>']
  (openT, sliceS m openT.length (m.length - closeLen), m.drop (m.length - closeLen))

def endsWithCI (s p : Str) : Bool := endsWithS (lowS s) (lowS p)

/-- Close-tag length of a subtitle-pattern match (`</p>`, `</span>` or
`</div>`). -/
def subCloseLen (m : Str) : Nat :=
  if endsWithCI m "</span>".toList then 7
  else if endsWithCI m "</div>".toList then 6
  else 4

/-- `roleWords.test(text) && text.length < 120`. -/
def roleQual (text : Str) : Bool := reTest roleWordsRE text && text.length < 120

/-- Replace an element match `m` by open-tag ++ `{{role}}` ++ close-tag
(the JS `tpl.replace(match[0], ...)` of lines 847 and 854). -/
def replaceRole (st : CState) (m : Str) (closeLen : Nat) : CState :=
  let dec := tagDecomp closeLen m
  { tpl := replaceFirstSub m (dec.1 ++ tokRole ++ dec.2.2) st.tpl,
    d := { st.d with role := true } }

/-- Stripped trimmed inner text of an element match. -/
def elemText (closeLen : Nat) (m : Str) : Str :=
  trimS (stripTags (tagDecomp closeLen m).2.1)

/-- The subtitle-pattern pass (runs only when the `<h2>` pass replaced
nothing; the `firstH2` fallback is disabled there since the pattern
source does not contain "h2"). -/
def roleSubtitle (st : CState) : CState :=
  match (reFindAll subtitleRE st.tpl).find?
      (fun x => roleQual (elemText (subCloseLen x.2) x.2)) with
  | some x => replaceRole st x.2 (subCloseLen x.2)
  | none => st

/-- Stage 7: scan `<h2>` matches in order; the first keyword-qualifying
one is replaced; but if the very first `<h2>`'s text fails the keyword
test and has length in (2, 80), it is replaced immediately as the
fallback, before later elements are examined. -/
def roleStage (st : CState) : CState :=
  match reFindAll h2RE st.tpl with
  | [] => roleSubtitle st
  | m0 :: rest =>
    let t0 := elemText 5 m0.2
    if roleQual t0 then replaceRole st m0.2 5
    else if t0.length < 80 && 2 < t0.length then replaceRole st m0.2 5
    else
      match rest.find? (fun x => roleQual (elemText 5 x.2)) with
      | some x => replaceRole st x.2 5
      | none => roleSubtitle st

/-! ### Stage 8: about/bio section (lines 863-887) -/

/-- `<(?:section|div)[^>]*(?:id|class)=["'][^"']*(?:w1|w2|...)[^"']*["'][^>]*>`. -/
def secDivOpen (words : List String) : RE :=
  seqL [chS '<', altL [litCs "section", litCs "div"], .many notGt,
        altL [litCs "id", litCs "class"], chS '=', .cls quoteCl, .many notQuote,
        altL (words.map litCs), .many notQuote, .cls quoteCl, .many notGt, chS '>']

def aboutOpenRE : RE := secDivOpen ["about", "bio", "intro", "summary"]

/-- `/<p([^>]*)>([\s\S]*?)<\/p>/gi`. -/
def pRE : RE :=
  seqL [litCs "<p", .many notGt, chS '>', .manyL anyCl, litCs "</p>"]

/-- Recover the attribute group of a `<p...>...</p>` match. -/
def pAttrs (m : Str) : Str := (m.drop 2).takeWhile notGt

/-- Inner text group of a `<p...>` match. -/
def pInner (m : Str) : Str :=
  dropLastN 4 (m.drop (2 + (pAttrs m).length + 1))

/-- Stage 8: replace the first substantial paragraph of the about region
with `{{bio}}` and delete the other substantial paragraphs. -/
def aboutStage (st : CState) : CState :=
  match findFullSection (reMatcher aboutOpenRE) st.tpl with
  | none => st
  | some sec =>
    let pMs := reFindAll pRE sec.inner
    match pMs.filter (fun x => 20 < (trimS (stripTags (pInner x.2))).length) with
    | [] => st
    | first :: others =>
      let inner1 := replaceFirstSub first.2
        ("<p".toList ++ pAttrs first.2 ++ ['>'] ++ tokBio ++ "</p>".toList) sec.inner
      let inner2 := others.foldl (fun acc x => replaceFirstSub x.2 [] acc) inner1
      { tpl := replaceFirstSub sec.full (sec.openTag ++ inner2 ++ sec.closeTag) st.tpl,
        d := { st.d with bio := true } }

/-! ### Stage 9: skills section (lines 889-925) -/

def skillsOpenRE : RE :=
  secDivOpen ["skill", "tech", "stack", "tool", "competenc", "expertise"]

/-- `/<(ul|ol)[^>]*>/i`. -/
def ulolRE : RE :=
  seqL [chS '<', altL [litCs "ul", litCs "ol"], .many notGt, chS '>']

/-- `` new RegExp(`<${tag}[^>]*>`, 'gi') `` for a concrete list tag. -/
def listTagRE (tag : Str) : RE :=
  seqL [chS '<', litC (lowS tag), .many notGt, chS '>']

/-- `/<li([^>]*)>([\s\S]*?)<\/li>/i`. -/
def liRE : RE :=
  seqL [litCs "<li", .many notGt, chS '>', .manyL anyCl, litCs "</li>"]

/-- `<(span|div|a)([^>]*)>([^<]{1,50})<\/\1>` with the back-reference
expanded over the three tag alternatives. -/
def tagItemFor (tag : String) : RE :=
  seqL [chS '<', litCs tag, .many notGt, chS '>',
        repClsRange (fun c => !(c = '<')) 1 49,
        litCs ("</" ++ tag ++ ">")]

def tagItemRE : RE := altL [tagItemFor "span", tagItemFor "div", tagItemFor "a"]

/-- Group 1 of a tag-item match (the tag name, original case) together
with its length. -/
def tagItemTag (m : Str) : Str :=
  if startsWithCI m "<span".toList then sliceS m 1 5
  else if startsWithCI m "<div".toList then sliceS m 1 4
  else sliceS m 1 2

/-- Group 2 of a tag-item match (the attribute text). -/
def tagItemAttrs (m : Str) : Str :=
  (m.drop (1 + (tagItemTag m).length)).takeWhile notGt

/-- The list-based branch of the skills stage; `none` when no list, no
balanced container or no `<li>` is found. -/
def skillsListBranch (sec : Region) : Option Str :=
  match reFind ulolRE sec.inner with
  | none => none
  | some lo =>
    let tag := (lo.2.drop 1).take 2
    match findFullSection (reMatcher (listTagRE tag)) sec.inner with
    | none => none
    | some ulSec =>
      match reFind liRE ulSec.inner with
      | none => none
      | some li =>
        let liAttrs := (li.2.drop 3).takeWhile notGt
        let liTemplate := "<li".toList ++ liAttrs ++ ['>'] ++ tokThis ++ "</li>".toList
        let newList := ulSec.openTag ++ ['\n'] ++ tokEachSkills ++ ['\n'] ++
          liTemplate ++ ['\n'] ++ tokEachClose ++ ['\n'] ++ ulSec.closeTag
        some (replaceFirstSub ulSec.full newList sec.inner)

/-- The pill-badge branch (lines 911-924): at least three short inline
tag items. -/
def skillsPillBranch (sec : Region) : Option Str :=
  let items := reFindAll tagItemRE sec.inner
  if 3 ≤ items.length then
    match items with
    | [] => none
    | it0 :: _ =>
      let template := ['<'] ++ tagItemTag it0.2 ++ tagItemAttrs it0.2 ++ ['>'] ++
        tokThis ++ "</".toList ++ tagItemTag it0.2 ++ ['>']
      let inner1 := items.foldl (fun acc x => replaceFirstSub x.2 [] acc) sec.inner
      let inner2 := reReplaceFirst (seqL [chS '>', .many isSpaceCh])
        (fun m => m ++ ['\n'] ++ tokEachSkills ++ ['\n'] ++ template ++ ['\n'] ++
          tokEachClose ++ ['\n']) inner1
      some inner2
  else none

/-- Stage 9. -/
def skillsStage (st : CState) : CState :=
  match findFullSection (reMatcher skillsOpenRE) st.tpl with
  | none => st
  | some sec =>
    match skillsListBranch sec with
    | some inner' =>
      { tpl := replaceFirstSub sec.full (sec.openTag ++ inner' ++ sec.closeTag) st.tpl,
        d := { st.d with skills := true } }
    | none =>
      match skillsPillBranch sec with
      | some inner' =>
        { tpl := replaceFirstSub sec.full (sec.openTag ++ inner' ++ sec.closeTag) st.tpl,
          d := { st.d with skills := true } }
      | none => st

/-! ### Stage 10: projects section (lines 927-1031) -/

def projOpenRE : RE := secDivOpen ["project", "work", "portfolio", "featured"]

/-- `/<(ul|ol)([^>]*)>/i`. -/
def listOpenRE : RE := ulolRE

/-- `/<li[^>]*>/gi` and its anchored `/^<li[^>]*>/gi` counterpart. -/
def liOpenRE : RE := seqL [litCs "<li", .many notGt, chS '>']

def articleOpenRE : RE := seqL [litCs "<article", .many notGt, chS '>']

/-- `/<div[^>]*class=["'][^"']*(?:card|item|project|featured)[^"']*["'][^>]*>/gi`. -/
def cardDivOpenRE : RE :=
  seqL [litCs "<div", .many notGt, litCs "class=", .cls quoteCl, .many notQuote,
        altL [litCs "card", litCs "item", litCs "project", litCs "featured"],
        .many notQuote, .cls quoteCl, .many notGt, chS '>']

/-- `/^<div[^>]*>/gi`. -/
def divOpenRE : RE := seqL [litCs "<div", .many notGt, chS '>']

/-- Stripped inner text of a region exceeds 20 characters. -/
def cardQual (r : Region) : Bool := 20 < (trimS (stripTags r.inner)).length

/-- Card discovery, try 1 (lines 938-951): `<li>` children of the first
balanced list container. -/
def cardsFromList (inner : Str) : List Region × Option Region :=
  match reFind listOpenRE inner with
  | none => ([], none)
  | some lo =>
    let tag := (lo.2.drop 1).take 2
    match findFullSection (reMatcher (listTagRE tag)) inner with
    | none => ([], none)
    | some cont =>
      let cards := (reFindAll liOpenRE cont.inner).filterMap (fun lm =>
        match findFullSection (anchoredMatcher liOpenRE) (cont.inner.drop lm.1) with
        | some c => if cardQual c then some c else none
        | none => none)
      (cards, some cont)

/-- Card discovery, try 2 (lines 954-963): `<article>` elements. -/
def cardsFromArticles (inner : Str) : List Region :=
  (reFindAll articleOpenRE inner).filterMap (fun am =>
    match findFullSection (anchoredMatcher articleOpenRE) (inner.drop am.1) with
    | some c => if cardQual c then some c else none
    | none => none)

/-- Card discovery, try 3 (lines 966-975): card-classed `<div>`s
(balanced against the generic `/^<div[^>]*>/`). -/
def cardsFromDivs (inner : Str) : List Region :=
  (reFindAll cardDivOpenRE inner).filterMap (fun dm =>
    match findFullSection (anchoredMatcher divOpenRE) (inner.drop dm.1) with
    | some c => if cardQual c then some c else none
    | none => none)

/-- `<(h[2-4]|strong)([^>]*)>([\s\S]*?)<\/\1>` with the back-reference
expanded. -/
def headingFor (tag : String) : RE :=
  seqL [chS '<', litCs tag, .many notGt, chS '>', .manyL anyCl,
        litCs ("</" ++ tag ++ ">")]

def headingRE : RE :=
  altL [headingFor "h2", headingFor "h3", headingFor "h4", headingFor "strong"]

/-- Group 1 of a heading match (tag text, original case). -/
def headingTag (m : Str) : Str :=
  if startsWithCI m "<strong".toList then sliceS m 1 7 else sliceS m 1 3

def headingAttrs (m : Str) : Str :=
  (m.drop (1 + (headingTag m).length)).takeWhile notGt

/-- `/<a([^>]*)>([\s\S]*?)<\/a>/i`. -/
def aRE : RE := seqL [litCs "<a", .many notGt, chS '>', .manyL anyCl, litCs "</a>"]

def aAttrs (m : Str) : Str := (m.drop 2).takeWhile notGt

def aInner (m : Str) : Str := dropLastN 4 (m.drop (2 + (aAttrs m).length + 1))

/-- `/href=["'][^"'#\{][^"']*["']/i`. -/
def hrefRE : RE :=
  seqL [litCs "href=", .cls quoteCl,
        .cls (fun c => !(quoteCl c || c = '#' || c = '\x7b')),
        .many notQuote, .cls quoteCl]

/-- `/<ul[^>]*aria-label=["'][^"']*(?:technolog|tool|tech|used)[^"']*["'][^>]*>[\s\S]*?<\/ul>/gi`. -/
def techUlRE : RE :=
  seqL [litCs "<ul", .many notGt, litCs "aria-label=", .cls quoteCl, .many notQuote,
        altL [litCs "technolog", litCs "tool", litCs "tech", litCs "used"],
        .many notQuote, .cls quoteCl, .many notGt, chS '>', .manyL anyCl, litCs "</ul>"]

/-- `/<img[^>]*(?:project|card|screenshot|thumb)[^>]*>/gi`. -/
def imgCardRE : RE :=
  seqL [litCs "<img", .many notGt,
        altL [litCs "project", litCs "card", litCs "screenshot", litCs "thumb"],
        .many notGt, chS '>']

def tokThisLink : Str := "\x7b\x7bthis.link\x7d\x7d".toList

/-- The card-template transformations (lines 978-1006). -/
def buildCardTemplate (card : Region) : Str :=
  let c0 := card.full
  let c1 :=
    match reFind headingRE c0 with
    | some hm =>
      replaceFirstSub hm.2
        (['<'] ++ headingTag hm.2 ++ headingAttrs hm.2 ++ ['>'] ++ tokThisTitle ++
         "</".toList ++ headingTag hm.2 ++ ['>']) c0
    | none =>
      match reFind aRE c0 with
      | some lm =>
        if 3 < (trimS (stripTags (aInner lm.2))).length then
          replaceFirstSub lm.2
            ("<a".toList ++ aAttrs lm.2 ++ ['>'] ++ tokThisTitle ++ "</a>".toList) c0
        else c0
      | none => c0
  let c2 :=
    match reFind pRE c1 with
    | some dm =>
      if 10 < (trimS (stripTags (pInner dm.2))).length then
        replaceFirstSub dm.2
          ("<p".toList ++ pAttrs dm.2 ++ ['>'] ++ tokThisDesc ++ "</p>".toList) c1
      else c1
    | none => c1
  let c3 := reReplaceFirst hrefRE (fun _ => "href=\"".toList ++ tokThisLink ++ ['"']) c2
  let c4 := reReplaceAll techUlRE (fun _ => []) c3
  reReplaceAll imgCardRE (fun _ => []) c4

/-- Stage 10. -/
def projectsStage (st : CState) : CState :=
  match findFullSection (reMatcher projOpenRE) st.tpl with
  | none => st
  | some sec =>
    let inner := sec.inner
    let tryList := cardsFromList inner
    let cardContainer := tryList.2
    let cardsB := if tryList.1.isEmpty then cardsFromArticles inner else tryList.1
    let cards := if cardsB.isEmpty then cardsFromDivs inner else cardsB
    match cards with
    | [] => st
    | c0 :: _ =>
      let cardTemplate := buildCardTemplate c0
      let inner' :=
        match cardContainer with
        | some cont =>
          let newContainer := cont.openTag ++ ['\n'] ++ tokEachProjOpen ++ ['\n'] ++
            cardTemplate ++ ['\n'] ++ tokEachClose ++ ['\n'] ++ cont.closeTag
          replaceFirstSub cont.full newContainer inner
        | none =>
          let firstCardIdx := (idxOfSub c0.full inner).getD 0
          let lastCard := cards.getLast?.getD c0
          let afterLast := (idxOfSub lastCard.full inner).getD 0 + lastCard.full.length
          (inner.take firstCardIdx) ++ ['\n'] ++ tokEachProjOpen ++ ['\n'] ++
            cardTemplate ++ ['\n'] ++ tokEachClose ++ ['\n'] ++ inner.drop afterLast
      { tpl := replaceFirstSub sec.full (sec.openTag ++ inner' ++ sec.closeTag) st.tpl,
        d := { st.d with projects := true } }

/-! ### Stage 11: removable sections and stale nav links (lines 1033-1053) -/

def removableREs : List RE :=
  [secDivOpen ["experience", "work-history", "employment", "career"],
   secDivOpen ["writing", "blog", "posts", "articles", "publications"],
   secDivOpen ["testimonial", "reviews", "endorsement"],
   secDivOpen ["education", "certification", "award"]]

/-- One removal step: delete the found section unless it already
contains `{{#each`, `{{bio}}` or `{{role}}`. -/
def removeOne (t : Str) (re : RE) : Str :=
  match findFullSection (reMatcher re) t with
  | some sec =>
    if !(containsSub tokHashEach sec.full) && !(containsSub tokBio sec.full) &&
       !(containsSub tokRole sec.full) then
      replaceFirstSub sec.full [] t
    else t
  | none => t

def removeStage (tpl : Str) : Str := removableREs.foldl removeOne tpl

def navAnchors : List String :=
  ["experience", "writing", "blog", "education", "testimonial"]

def nav1RE : RE :=
  seqL [chS '<', altL [litCs "li", litCs "a"], .many notGt, chS '>', .many isSpaceCh,
        litCs "<a", .many notGt, litCs "href=", .cls quoteCl, chS '#',
        altL (navAnchors.map litCs), .many notQuote, .cls quoteCl, .many notGt,
        chS '>', .manyL anyCl, litCs "</", altL [litCs "li", litCs "a"], chS '>']

def nav2RE : RE :=
  seqL [litCs "<a", .many notGt, litCs "href=", .cls quoteCl, chS '#',
        altL (navAnchors.map litCs), .many notQuote, .cls quoteCl, .many notGt,
        chS '>', .manyL anyCl, litCs "</a>"]

def navClean (tpl : Str) : Str :=
  reReplaceAll nav2RE (fun _ => []) (reReplaceAll nav1RE (fun _ => []) tpl)

/-! ### Stages 12-14: email, social links, footer attribution -/

/-- `/mailto:[\w.-]+@[\w.-]+\.[a-zA-Z]{2,}/gi`. -/
def mailtoRE : RE := .seq (litCs "mailto:") emailRE

/-- Stage 12 (lines 1056-1067): only the first email match triggers a
replacement; the `while` loop's later iterations do nothing. -/
def emailStage (st : CState) : CState :=
  let st1 : CState :=
    match reFind emailRE st.tpl with
    | some x => { tpl := replaceFirstSub x.2 tokEmail st.tpl,
                  d := { st.d with email := true } }
    | none => st
  { st1 with tpl := reReplaceAll mailtoRE (fun _ => "mailto:".toList ++ tokEmail) st1.tpl }

/-- `/https?:\/\/github\.com\/[\w-]+/gi`. -/
def ghUrlRE : RE :=
  seqL [litCs "http", .opt (chC 's'), litCs "://github.com/", .many1 wdh]

/-- `/https?:\/\/(?:www\.)?linkedin\.com\/in\/[\w-]+/gi`. -/
def liUrlRE : RE :=
  seqL [litCs "http", .opt (chC 's'), litCs "://", .opt (litCs "www."),
        litCs "linkedin.com/in/", .many1 wdh]

/-- Third-party profile hosts replaced by a dead `#` anchor. -/
def otherSocialRE : RE :=
  seqL [litCs "http", .opt (chC 's'), litCs "://", .opt (litCs "www."),
        altL [litCs "codepen.io", litCs "instagram.com", litCs "twitter.com",
              litCs "dribbble.com", litCs "behance.net", litCs "goodreads.com"],
        chS '/', .many1 wdd, .many notQuote]

/-- Stage 13 (lines 1070-1076). -/
def socialStage (st : CState) : CState :=
  let t1 := reReplaceAll ghUrlRE (fun _ => tokGhUrl) st.tpl
  let t2 := reReplaceAll liUrlRE (fun _ => tokLiUrl) t1
  let d' := if containsSub tokGhUrl t2 || containsSub tokLiUrl t2 then
      { st.d with social := true }
    else st.d
  { tpl := reReplaceAll otherSocialRE (fun _ => ['#']) t2, d := d' }

def footerOpenRE : RE := seqL [litCs "<footer", .many notGt, chS '>']

/-- `/<p[^>]*>[\s\S]*?(?:designed|coded|built|made)[\s\S]*?(?:by|in)[\s\S]*?<\/p>/gi`. -/
def footerPRE : RE :=
  seqL [litCs "<p", .many notGt, chS '>', .manyL anyCl,
        altL [litCs "designed", litCs "coded", litCs "built", litCs "made"],
        .manyL anyCl, altL [litCs "by", litCs "in"], .manyL anyCl, litCs "</p>"]

/-- Stage 14 (lines 1080-1087). -/
def footerStage (tpl : Str) : Str :=
  match findFullSection (reMatcher footerOpenRE) tpl with
  | some sec =>
    replaceFirstSub sec.full
      (sec.openTag ++
       reReplaceAll footerPRE (fun _ => "<p>Built with ❤️</p>".toList) sec.inner ++
       sec.closeTag) tpl
  | none => tpl

/-! ### Stage 15: fallback injections (lines 1089-1149) -/

/-- `/<body[^>]*>([\s\S]*)<\/body>/i` (greedy: up to the last close). -/
def bodyRE : RE :=
  seqL [litCs "<body", .many notGt, chS '>', .many anyCl, litCs "</body>"]

/-- Group 1 of a body match. -/
def bodyInner (m : Str) : Str :=
  let attrs := (m.drop 5).takeWhile notGt
  dropLastN 7 (m.drop (5 + attrs.length + 1))

def heroSectionStr : Str :=
  "\n<section style=\"text-align:center;padding:3rem 1rem;\">\n  <h1>".toList ++
  tokName ++
  "</h1>\n  <p style=\"font-size:1.2em;opacity:0.8;\">".toList ++ tokRole ++
  "</p>\n  <p style=\"max-width:600px;margin:1rem auto;\">".toList ++ tokBio ++
  "</p>\n</section>".toList

/-- Hero fallback: only when none of name/role/bio was detected, and only
when a `<body>` element is present. -/
def heroFallback (st : CState) : CState :=
  if !st.d.name && !st.d.role && !st.d.bio then
    match reFind bodyRE st.tpl with
    | some x =>
      let ib := bodyInner x.2
      { tpl := replaceFirstSub ib (heroSectionStr ++ ib) st.tpl,
        d := { st.d with name := true, role := true, bio := true } }
    | none => st
  else st

def skillsSectionStr : Str :=
  "\n<section style=\"padding:2rem 1rem;text-align:center;\">\n  <h2>Skills</h2>\n  <div style=\"display:flex;flex-wrap:wrap;gap:0.5rem;justify-content:center;max-width:600px;margin:0 auto;\">\n    ".toList ++
  tokEachSkills ++
  "\n    <span style=\"background:rgba(100,100,255,0.15);padding:0.3rem 0.8rem;border-radius:20px;font-size:0.9rem;\">".toList ++
  tokThis ++ "</span>\n    ".toList ++ tokEachClose ++ "\n  </div>\n</section>".toList

/-- Skills fallback (lines 1106-1118): the flag is set unconditionally;
the text insertion is a no-op when `</body>` is absent. -/
def skillsFallback (st : CState) : CState :=
  if !st.d.skills then
    { tpl := replaceFirstSub "</body>".toList
        (skillsSectionStr ++ "\n</body>".toList) st.tpl,
      d := { st.d with skills := true } }
  else st

def tokIfLink : Str := "\x7b\x7b#if this.link\x7d\x7d".toList
def tokEndIf : Str := "\x7b\x7b/if\x7d\x7d".toList
def tokIfEmail : Str := "\x7b\x7b#if email\x7d\x7d".toList
def tokIfGh : Str := "\x7b\x7b#if githubUrl\x7d\x7d".toList
def tokIfLi : Str := "\x7b\x7b#if linkedinUrl\x7d\x7d".toList

def projectsSectionStr : Str :=
  "\n<section style=\"padding:2rem 1rem;max-width:800px;margin:0 auto;\">\n  <h2 style=\"text-align:center;\">Projects</h2>\n  ".toList ++
  tokEachProjOpen ++
  "\n  <div style=\"background:rgba(255,255,255,0.05);border:1px solid rgba(255,255,255,0.1);border-radius:12px;padding:1.5rem;margin:1rem 0;\">\n    <h3>".toList ++
  tokThisTitle ++ "</h3>\n    <p>".toList ++ tokThisDesc ++ "</p>\n    ".toList ++
  tokIfLink ++ "<a href=\"".toList ++ tokThisLink ++
  "\" target=\"_blank\">View Project →</a>".toList ++ tokEndIf ++
  "\n  </div>\n  ".toList ++ tokEachClose ++ "\n</section>".toList

/-- Projects fallback (lines 1120-1134). -/
def projectsFallback (st : CState) : CState :=
  if !st.d.projects then
    { tpl := replaceFirstSub "</body>".toList
        (projectsSectionStr ++ "\n</body>".toList) st.tpl,
      d := { st.d with projects := true } }
  else st

def contactSectionStr : Str :=
  "\n<section style=\"padding:2rem 1rem;text-align:center;\">\n  ".toList ++
  tokIfEmail ++ "<p>📧 <a href=\"mailto:".toList ++ tokEmail ++ "\">".toList ++
  tokEmail ++ "</a></p>".toList ++ tokEndIf ++
  "\n  <div style=\"display:flex;gap:1rem;justify-content:center;margin-top:0.5rem;\">\n    ".toList ++
  tokIfGh ++ "<a href=\"".toList ++ tokGhUrl ++
  "\" target=\"_blank\">GitHub</a>".toList ++ tokEndIf ++ "\n    ".toList ++
  tokIfLi ++ "<a href=\"".toList ++ tokLiUrl ++
  "\" target=\"_blank\">LinkedIn</a>".toList ++ tokEndIf ++
  "\n  </div>\n</section>\n</body>".toList

/-- Contact/social fallback (lines 1136-1149); sets both the email and
social flags. -/
def emailFallback (st : CState) : CState :=
  if !st.d.email then
    let t1 := replaceFirstSub "</body>".toList contactSectionStr st.tpl
    let t2 := replaceFirstSub "</body></body>".toList "</body>".toList t1
    { tpl := t2, d := { st.d with email := true, social := true } }
  else st

/-- The `TemplateSkeleton` result pair. -/
structure TemplateResult where
  template : Str
  detected : Detected
  deriving Repr, DecidableEq

/-- The pipeline state after stage 10 (just before the removal of
non-templatable sections): stages 1-10 in source order. -/
def preRemoval (html origin : Str) : CState :=
  let t4 := injectCss (rewriteUrls origin (stripStyles (stripScripts html)))
  let origName := origNameOf t4
  let s5 := nameStage { tpl := t4, d := allFalse }
  let t6 := titleReplace (cleanPersonName origName s5.tpl)
  projectsStage (skillsStage (aboutStage (roleStage { s5 with tpl := t6 })))

/-- `convertHTMLToTemplate(html, origin)` (lines 782-1152), as the
composition of the pipeline stages in source order. -/
def convertHTMLToTemplate (html origin : Str) : TemplateResult :=
  let s10 := preRemoval html origin
  let t11 := navClean (removeStage s10.tpl)
  let s12 := emailStage { s10 with tpl := t11 }
  let s13 := socialStage s12
  let t14 := footerStage s13.tpl
  let s15 := heroFallback { s13 with tpl := t14 }
  let s18 := emailFallback (projectsFallback (skillsFallback s15))
  { template := s18.tpl, detected := s18.d }

/-! ### Concrete inputs used by the claim theorems -/

def origin0 : Str := "https://x.com".toList

/-- Skill-disambiguation input 1. -/
def skillTextA : Str := "C++, C#, CSS, and Go fishing".toList

/-- Skill-disambiguation input 2. -/
def skillTextB : Str := "Built with Go, React".toList

/-- The skills field of the extracted record. -/
def skillsOf (t : Str) : List Str := ((extractResumeData t).getD emptyProfile).skills

/-- The project-parsing test input of the spec (§8). -/
def projInput : Str :=
  "Projects\nE-Commerce Platform | React, Node\nBuilt a scalable store with 10k users. https://github.com/x/y\nAI Tasks\nDeveloped a task app.".toList

/-- Resume whose first line is a name line that also carries a role
keyword plus punctuation stripped by the name cleaning. -/
def adaInput : Str := "Ada Web!".toList

/-- The record extracted from `adaInput`. -/
def adaRecord : ProfileRecord :=
  { name := "Ada Web".toList, role := "Ada Web!".toList, bio := [], summary := [],
    email := [], phone := [], github := [], linkedin := [], skills := [], projects := [] }

/-- A minimal resume with one project, for the C10 witness. -/
def alphaInput : Str := "Projects\nAlpha App\nBuilt a thing for testing.".toList

def alphaRecord : ProfileRecord :=
  { name := "Alpha App".toList, role := [], bio := [], summary := [], email := [],
    phone := [], github := [], linkedin := [], skills := [],
    projects := [{ title := "Alpha App".toList,
                   description := "Built a thing for testing.".toList, link := [] }] }

/-- The BalancedRegionFinder test markup of the spec (§8). -/
def c3src : Str :=
  "<div class=\"about\"><div>nested</div>real bio text here</div>".toList

/-- Two `<h2>` headings: the first keyword-free and short, the second
matching a role keyword. -/
def c4html : Str := "<h2>My Hobbies</h2><h2>Senior Developer</h2>".toList

def c4firstH2 : Str := "<h2>My Hobbies</h2>".toList

/-- A page whose `<h1>` name also appears inside an experience section,
so the global name cleanup plants a placeholder there. -/
def c5html : Str :=
  "<h1>John Doe</h1><div class=\"experience\"><p>John Doe worked at X for a while</p></div>".toList

def c9html : Str := "<h1>Jane Doe</h1>".toList

/-! ## Theorems -/

theorem reSplit_ne_nil (re : RE) (s : Str) : reSplit re s ≠ [] := by
  unfold reSplit
  unfold reSplitAux
  cases h : reSplitAux.reSplitStep re none [] s <;> simp

theorem namePass_isSome (lines : List Str) : (namePass lines).isSome := by
  unfold namePass
  cases h : (lines.take 8).findSome? nameCand with
  | some nm => rfl
  | none =>
    cases lines with
    | nil => rfl
    | cons a l => simp

theorem projStep_isSome (st : Option Project × List Project) (line : Str) :
    (projStep st line).isSome := by
  unfold projStep
  by_cases h1 : (trimS (removeCls bulletCl line)).isEmpty
  · simp [h1]
  · simp only [h1, if_false, Bool.false_eq_true]
    by_cases h2 : (isLikelyTitle (trimS (removeCls bulletCl line)) &&
        decide (3 < (trimS (removeCls bulletCl line)).length)) = true
    · simp only [h2, if_true]
      have hne := reSplit_ne_nil titleSepRE (trimS (removeCls bulletCl line))
      cases hq : reSplit titleSepRE (trimS (removeCls bulletCl line)) with
      | nil => exact absurd hq hne
      | cons t0 ts => simp [hq]
    · simp only [h2, if_false]
      cases st.1 <;> simp

theorem foldlM_projStep_isSome (pl : List Str) :
    ∀ st, (List.foldlM projStep st pl).isSome := by
  induction pl with
  | nil => intro st; rfl
  | cons l pl ih =>
    intro st
    obtain ⟨s1, hs1⟩ := Option.isSome_iff_exists.mp (projStep_isSome st l)
    show (projStep st l >>= fun s' => List.foldlM projStep s' pl).isSome
    rw [hs1]
    simpa using ih s1

theorem projectsPass_isSome (lines : List Str) : (projectsPass lines).isSome := by
  unfold projectsPass
  cases h : findSection lines projKws with
  | none => rfl
  | some idx =>
    obtain ⟨st, hst⟩ := Option.isSome_iff_exists.mp
      (foldlM_projStep_isSome
        (sliceL lines (idx + 1) (getSectionEnd lines idx)) (none, []))
    simp only [hst, Option.map, Option.isSome]

theorem extract_isSome (t : Str) : (extractResumeData t).isSome := by
  obtain ⟨nm, hnm⟩ := Option.isSome_iff_exists.mp (namePass_isSome (linesOf t))
  obtain ⟨ps, hps⟩ := Option.isSome_iff_exists.mp (projectsPass_isSome (linesOf t))
  simp only [extractResumeData, hnm, hps, Option.bind, Option.map, Option.isSome]

/-- C2: for every string input `extractResumeData` returns without
throwing (`some` in the `Option`-modelled embedding, where the two
guarded array accesses would be `none` on a miss) and every declared
field is present with an empty default — the empty input yields the
all-empty record.  `convertHTMLToTemplate` is embedded as a total
function (all its accesses are structurally guarded), so it returns a
two-field result for every input. -/
theorem extract_convert_total :
    (∀ t : Str, (extractResumeData t).isSome) ∧
    extractResumeData [] = some emptyProfile ∧
    (∀ html origin : Str, ∃ res : TemplateResult,
      convertHTMLToTemplate html origin = res) :=
  ⟨extract_isSome, by decide, fun _ _ => ⟨_, rfl⟩⟩

theorem extract_name_eq_namePass (t : Str) (r : ProfileRecord)
    (h : extractResumeData t = some r) : namePass (linesOf t) = some r.name := by
  cases hnm : namePass (linesOf t) with
  | none =>
    simp only [extractResumeData, hnm, Option.bind] at h
    exact Option.noConfusion h
  | some nm =>
    cases hps : projectsPass (linesOf t) with
    | none =>
      simp only [extractResumeData, hnm, hps, Option.bind, Option.map] at h
      exact Option.noConfusion h
    | some ps =>
      simp only [extractResumeData, hnm, hps, Option.bind, Option.map,
        Option.some.injEq] at h
      rw [← h]

theorem extract_projects_eq (t : Str) (r : ProfileRecord)
    (h : extractResumeData t = some r) : projectsPass (linesOf t) = some r.projects := by
  cases hnm : namePass (linesOf t) with
  | none =>
    simp only [extractResumeData, hnm, Option.bind] at h
    exact Option.noConfusion h
  | some nm =>
    cases hps : projectsPass (linesOf t) with
    | none =>
      simp only [extractResumeData, hnm, hps, Option.bind, Option.map] at h
      exact Option.noConfusion h
    | some ps =>
      simp only [extractResumeData, hnm, hps, Option.bind, Option.map,
        Option.some.injEq] at h
      rw [← h]

/-- C6 (amended): the name set by the name pass is never overwritten by a
later pass (the returned `name` is exactly the name pass's output), and
the role scanner skips a line exactly when it is literally equal to the
stored name string — so a name line that the name cleaning altered
(e.g. stripped punctuation) is not skipped, and the role can be taken
from the name line. -/
theorem name_stable_role_skip_amended :
    (∀ (t : Str) (r : ProfileRecord), extractResumeData t = some r →
      namePass (linesOf t) = some r.name) ∧
    (∀ (lines : List Str) (nm l : Str), rolePick lines nm = some l → l ≠ nm) := by
  refine ⟨extract_name_eq_namePass, ?_⟩
  intro lines nm l h
  have hp := List.find?_some h
  simp only [Bool.and_eq_true, decide_eq_true_eq, Bool.not_eq_true] at hp
  exact hp.1.1.1.1.2

/-- C6 counterexample: for the input "Ada Web!" the name pass stores the
cleaned form "Ada Web", the raw line "Ada Web!" is therefore not skipped
by the role scanner, and the returned role is the name line itself. -/
theorem role_taken_from_name_line_cex :
    linesOf adaInput = [adaInput] ∧
    nameClean adaInput = "Ada Web".toList ∧
    (extractResumeData adaInput).map ProfileRecord.name = some "Ada Web".toList ∧
    (extractResumeData adaInput).map ProfileRecord.role = some adaInput := by
  decide

theorem name_stable_role_skip_amended_witness :
    namePass (linesOf adaInput) = some "Ada Web".toList ∧
    adaInput ≠ "Ada Web".toList :=
  ⟨name_stable_role_skip_amended.1 adaInput adaRecord (by decide),
   name_stable_role_skip_amended.2 [adaInput] "Ada Web".toList adaInput (by decide)⟩

/-- C7: skill disambiguation on the two spec inputs: "C++, C#, CSS, and
Go fishing" detects C++, C# and CSS but neither bare C nor Go; "Built
with Go, React" detects Go and React. -/
theorem skill_disambiguation :
    ((extractResumeData skillTextA).isSome ∧
     "C++".toList ∈ skillsOf skillTextA ∧
     "C#".toList ∈ skillsOf skillTextA ∧
     "CSS".toList ∈ skillsOf skillTextA ∧
     "C".toList ∉ skillsOf skillTextA ∧
     "Go".toList ∉ skillsOf skillTextA) ∧
    ((extractResumeData skillTextB).isSome ∧
     "Go".toList ∈ skillsOf skillTextB ∧
     "React".toList ∈ skillsOf skillTextB) := by
  decide

/-- C8 (code bug): on the spec's project-parsing input the code returns
two projects with the expected link, description and second title, but
the first title is "ECommerce Platform" — the bullet-stripping regex
class `[•\-…]` (line 545) removes every hyphen, so the expected
"E-Commerce Platform" cannot be produced. -/
theorem project_hyphen_stripped :
    (extractResumeData projInput).map ProfileRecord.projects =
      some [{ title := "ECommerce Platform".toList,
              description := "React, Node. Built a scalable store with 10k users.".toList,
              link := "https://github.com/x/y".toList },
            { title := "AI Tasks".toList,
              description := "Developed a task app.".toList,
              link := [] }] ∧
    containsSub "scalable store".toList
      "React, Node. Built a scalable store with 10k users.".toList = true := by
  decide

theorem projStep_titles (cur : Option Project) (acc : List Project)
    (st' : Option Project × List Project) (line : Str)
    (hst : ∀ p ∈ acc, p.title ≠ []) (h : projStep (cur, acc) line = some st') :
    ∀ p ∈ st'.2, p.title ≠ [] := by
  unfold projStep at h
  by_cases h1 : (trimS (removeCls bulletCl line)).isEmpty
  · rw [if_pos h1] at h
    injection h with h
    subst h
    exact hst
  · rw [if_neg h1] at h
    by_cases h2 : (isLikelyTitle (trimS (removeCls bulletCl line)) &&
        decide (3 < (trimS (removeCls bulletCl line)).length)) = true
    · rw [if_pos h2] at h
      simp only [Option.map] at h
      cases hg : (reSplit titleSepRE (trimS (removeCls bulletCl line))).get? 0 with
      | none =>
        rw [hg] at h
        exact Option.noConfusion h
      | some t0 =>
        rw [hg] at h
        injection h with h
        subst h
        intro p hp
        cases cur with
        | none => exact hst p hp
        | some q =>
          simp only at hp
          by_cases hq : q.title ≠ []
          · rw [if_pos hq] at hp
            rcases List.mem_append.mp hp with hin | hin
            · exact hst p hin
            · rw [List.mem_singleton] at hin
              subst hin
              exact hq
          · rw [if_neg hq] at hp
            exact hst p hp
    · rw [if_neg h2] at h
      cases cur with
      | none =>
        injection h with h
        subst h
        exact hst
      | some q =>
        simp only [Option.some.injEq] at h
        subst h
        exact hst

theorem foldlM_projStep_titles (pl : List Str) :
    ∀ st st', (∀ p ∈ st.2, p.title ≠ []) →
    List.foldlM projStep st pl = some st' → ∀ p ∈ st'.2, p.title ≠ [] := by
  induction pl with
  | nil =>
    intro st st' hst h
    injection h with h
    subst h
    exact hst
  | cons l pl ih =>
    rintro ⟨cur, acc⟩ st' hst h
    have hh : projStep (cur, acc) l >>= (fun s' => List.foldlM projStep s' pl) = some st' := h
    cases h1 : projStep (cur, acc) l with
    | none => rw [h1] at hh; exact Option.noConfusion hh
    | some s1 =>
      rw [h1] at hh
      exact ih s1 st' (projStep_titles cur acc s1 l hst h1) hh

theorem projectsPass_titles (lines : List Str) (ps : List Project)
    (h : projectsPass lines = some ps) : ∀ p ∈ ps, p.title ≠ [] := by
  unfold projectsPass at h
  cases hf : findSection lines projKws with
  | none =>
    rw [hf] at h
    injection h with h
    subst h
    intro p hp
    exact absurd hp (List.not_mem_nil p)
  | some idx =>
    rw [hf] at h
    simp only [Option.map] at h
    cases hm : List.foldlM projStep (none, [])
        (sliceL lines (idx + 1) (getSectionEnd lines idx)) with
    | none => rw [hm] at h; exact Option.noConfusion h
    | some st' =>
      rw [hm] at h
      injection h with h
      subst h
      have hinv : ∀ p ∈ st'.2, p.title ≠ [] :=
        foldlM_projStep_titles _ (none, []) st'
          (by intro p hp; exact absurd hp (List.not_mem_nil p)) hm
      intro p hp
      rw [List.mem_map] at hp
      obtain ⟨q, hq, rfl⟩ := hp
      have hq' := List.take_subset 5 _ hq
      show q.title ≠ []
      rcases List.mem_append.mp hq' with hin | hin
      · exact hinv q hin
      · cases hcur : st'.1 with
        | none =>
          rw [hcur] at hin
          exact absurd hin (List.not_mem_nil q)
        | some c =>
          rw [hcur] at hin
          have hin' : q ∈ (if c.title ≠ [] then [c] else []) := hin
          by_cases hc : c.title ≠ []
          · rw [if_pos hc] at hin'
            rw [List.mem_singleton] at hin'
            subst hin'
            exact hc
          · rw [if_neg hc] at hin'
            exact absurd hin' (List.not_mem_nil q)

/-- C10: every project in the returned sequence has a non-empty title —
a project is pushed only when its accumulated title (first
separator-split segment, trimmed, truncated to 100) is non-empty. -/
theorem project_titles_nonempty :
    ∀ (t : Str) (r : ProfileRecord), extractResumeData t = some r →
    ∀ p ∈ r.projects, p.title ≠ [] := by
  intro t r h p hp
  exact projectsPass_titles (linesOf t) r.projects (extract_projects_eq t r h) p hp

theorem project_titles_nonempty_witness :
    ({ title := "Alpha App".toList,
       description := "Built a thing for testing.".toList,
       link := [] } : Project).title ≠ [] :=
  project_titles_nonempty alphaInput alphaRecord (by decide) _ (by decide)

/-! ### C1: the fallback flag guarantees -/

theorem skillsFallback_skills (st : CState) : (skillsFallback st).d.skills = true := by
  cases h : st.d.skills <;> simp [skillsFallback, h]

theorem projectsFallback_keep (st : CState) :
    (projectsFallback st).d.projects = true ∧
    (projectsFallback st).d.skills = st.d.skills := by
  cases h : st.d.projects <;> simp [projectsFallback, h]

theorem emailFallback_keep (st : CState) :
    (emailFallback st).d.email = true ∧
    (emailFallback st).d.skills = st.d.skills ∧
    (emailFallback st).d.projects = st.d.projects := by
  cases h : st.d.email <;> simp [emailFallback, h]

theorem fallback_flags (s : CState) :
    (emailFallback (projectsFallback (skillsFallback s))).d.skills = true ∧
    (emailFallback (projectsFallback (skillsFallback s))).d.projects = true ∧
    (emailFallback (projectsFallback (skillsFallback s))).d.email = true := by
  have h1 := skillsFallback_skills s
  have h2 := projectsFallback_keep (skillsFallback s)
  have h3 := emailFallback_keep (projectsFallback (skillsFallback s))
  exact ⟨by rw [h3.2.1, h2.2, h1], by rw [h3.2.2, h2.1], h3.1⟩

/-- C1 (amended): on return, `detectedSections.skills`, `.projects` and
`.email` are always `true` (the final fallback stages set them
unconditionally); the remaining keys (`name`, `role`, `bio`, `social`)
are not guaranteed. -/
theorem detected_guarantee_partial :
    ∀ html origin : Str,
      (convertHTMLToTemplate html origin).detected.skills = true ∧
      (convertHTMLToTemplate html origin).detected.projects = true ∧
      (convertHTMLToTemplate html origin).detected.email = true := by
  intro html origin
  simp only [convertHTMLToTemplate]
  exact fallback_flags _

/-- C1 counterexample: on the empty document (no `<body>`, no headings,
no sections) `detectedSections.name`, `.role` and `.bio` are all
`false` on return, so the map does not have every key `true`. -/
theorem detected_not_all_true_cex :
    (convertHTMLToTemplate [] origin0).detected.name = false ∧
    (convertHTMLToTemplate [] origin0).detected.role = false ∧
    (convertHTMLToTemplate [] origin0).detected.bio = false := by
  decide

/-- The template text just before the removal stage on `c5html`: the
experience section already holds a `{{name}}` placeholder. -/
def c5pre : Str :=
  "<link rel=\"stylesheet\" href=\"style.css\">\n<h1>\x7b\x7b\x7bname\x7d\x7d\x7d</h1><div class=\"experience\"><p>\x7b\x7bname\x7d\x7d worked at X for a while</p></div>".toList

/-- An experience section already containing `{{bio}}` (kept by the
removal guard). -/
def c5keep : Str := "<div class=\"experience\">\x7b\x7bbio\x7d\x7d</div>".toList

def c5keepSec : Region :=
  { full := c5keep, inner := tokBio, start := 0, endIdx := 37,
    openTag := "<div class=\"experience\">".toList, closeTag := "</div>".toList }

/-! ### Claims C3, C4, C5, C9 -/

theorem mRE_seq_cls_ne_nil (p : Char → Bool) (b : RE) (prev : Option Char) (s : Str) :
    ∀ x ∈ mRE (RE.seq (RE.cls p) b) prev s, x.1 ≠ [] := by
  intro x hx
  simp only [mRE] at hx
  rw [List.mem_flatMap] at hx
  obtain ⟨a, ha, hx⟩ := hx
  rw [List.mem_map] at hx
  obtain ⟨y, _, rfl⟩ := hx
  cases s with
  | nil => exact absurd ha (List.not_mem_nil a)
  | cons c cs =>
    simp only [mRE] at ha
    by_cases hc : p c
    · rw [if_pos hc] at ha
      rw [List.mem_singleton] at ha
      subst ha
      simp
    · rw [if_neg hc] at ha
      exact absurd ha (List.not_mem_nil a)

theorem matchAt_scanRE_ne_nil (name : Str) (prev : Option Char) (s : Str)
    (x : Str × Option Char × Str) (h : matchAt (scanRE name) prev s = some x) :
    x.1 ≠ [] := by
  have hmem : x ∈ mRE (scanRE name) prev s := by
    unfold matchAt at h
    cases hl : mRE (scanRE name) prev s with
    | nil => rw [hl] at h; exact Option.noConfusion h
    | cons a as =>
      rw [hl] at h
      injection h with h
      subst h
      exact List.mem_cons_self a as
  exact mRE_seq_cls_ne_nil _ _ prev s x hmem

theorem sectionScan_eq (re : RE)
    (hne : ∀ prev s x, matchAt re prev s = some x → x.1 ≠ []) :
    ∀ (fuel : Nat) (prev : Option Char) (i depth : Nat) (s : Str),
    sectionScan re fuel prev i depth s =
      (depthTrace depth ((reFindAllAux re fuel prev i s).filter
          (fun x => !(endsWithS x.2 "/>".toList)))).map
        (fun x => (x.1, x.1 + x.2.length, x.2)) := by
  intro fuel
  induction fuel with
  | zero => intro prev i depth s; rfl
  | succ fuel ih =>
    intro prev i depth s
    cases hm : matchAt re prev s with
    | none =>
      cases s with
      | nil => simp [sectionScan, reFindAllAux, hm, depthTrace]
      | cons c cs =>
        simp only [sectionScan, reFindAllAux, hm]
        exact ih (some c) (i + 1) depth cs
    | some x =>
      obtain ⟨m, p', rest⟩ := x
      have hm' : m ≠ [] := hne prev s _ hm
      have hE : m.isEmpty = false := by
        cases m with
        | nil => exact absurd rfl hm'
        | cons a l => rfl
      by_cases hsc : endsWithS m "/>".toList
      · simp only [sectionScan, reFindAllAux, hm, hE, hsc, Bool.false_eq_true, if_false,
          if_true, List.filter_cons, Bool.not_true, Bool.false_eq_true]
        exact ih p' (i + m.length) depth rest
      · by_cases hd : (if isCloseTag m then depth - 1 else depth + 1) = 0
        · simp only [sectionScan, reFindAllAux, hm, hE, hsc, Bool.false_eq_true, if_false,
            List.filter_cons, Bool.not_false, if_true, depthTrace, hd, Option.map]
        · simp only [sectionScan, reFindAllAux, hm, hE, hsc, Bool.false_eq_true, if_false,
            List.filter_cons, Bool.not_false, if_true, depthTrace, hd]
          exact ih p' (i + m.length) _ rest

theorem findFullSection_eq_spec (matcher : Str → Option (Nat × Str)) (source : Str) :
    findFullSection matcher source = findFullSectionSpec matcher source := by
  unfold findFullSection findFullSectionSpec
  cases hm : matcher source with
  | none => rfl
  | some x =>
    obtain ⟨startIdx, openTag⟩ := x
    cases ht : tagNameOf openTag with
    | none => simp only [ht]
    | some name =>
      simp only [ht]
      rw [sectionScan_eq (scanRE (lowS name))
        (fun prev s x h => matchAt_scanRE_ne_nil (lowS name) prev s x h)]
      rcases hdt : depthTrace 1 ((reFindAllAux (scanRE (lowS name))
          ((source.drop (startIdx + openTag.length)).length + 1)
          ((source.take (startIdx + openTag.length)).getLast?)
          (startIdx + openTag.length)
          (source.drop (startIdx + openTag.length))).filter
          (fun x => !(endsWithS x.2 "/>".toList))) with _ | ⟨i, m⟩
      · rfl
      · rfl

/-- C3: `findFullSection` returns the first complete depth-balanced
region — it coincides with the spec-side rendering `findFullSectionSpec`
(nested same-name tags counted case-insensitively, self-closing hits
ignored, depth from 1, complete at the first return to 0, `none` when
the depth never returns to 0) — it returns `none` when no opening match
exists, and on the spec's test markup the region's inner text includes
both the nested div and "real bio text here" while its end offset is the
end of the outer close tag. -/
theorem findFullSection_balanced :
    (∀ (matcher : Str → Option (Nat × Str)) (source : Str),
      findFullSection matcher source = findFullSectionSpec matcher source) ∧
    (∀ (matcher : Str → Option (Nat × Str)) (source : Str),
      matcher source = none → findFullSection matcher source = none) ∧
    ((findFullSection (reMatcher aboutOpenRE) c3src).map
        (fun r => (containsSub "<div>nested</div>".toList r.inner,
                   containsSub "real bio text here".toList r.inner,
                   r.endIdx)) = some (true, true, c3src.length)) := by
  refine ⟨findFullSection_eq_spec, ?_, by decide⟩
  intro matcher source h
  unfold findFullSection
  rw [h]

theorem findFullSection_balanced_witness :
    findFullSection (fun _ => none) "<div>x</div>".toList = none :=
  findFullSection_balanced.2.1 (fun _ => none) "<div>x</div>".toList rfl

/-- C4 (amended): in the role stage, the first `<h2>` is replaced when
its stripped text keyword-qualifies; otherwise, if that first `<h2>`'s
text has length in (2, 80) it is replaced immediately as the fallback —
before any later element is examined — so the fallback can preempt a
later keyword match. -/
theorem role_stage_first_h2_amended :
    ∀ (st : CState) (i : Nat) (m : Str) (rest : List (Nat × Str)),
      reFindAll h2RE st.tpl = (i, m) :: rest →
      (roleQual (elemText 5 m) = true → roleStage st = replaceRole st m 5) ∧
      (roleQual (elemText 5 m) = false → (elemText 5 m).length < 80 →
        2 < (elemText 5 m).length → roleStage st = replaceRole st m 5) := by
  intro st i m rest h
  constructor
  · intro hq
    unfold roleStage
    rw [h]
    simp only [hq, if_true]
  · intro hq h80 h2
    unfold roleStage
    rw [h]
    simp only [hq, Bool.false_eq_true, if_false]
    rw [if_pos (by simp [h80, h2])]

theorem role_stage_first_h2_amended_witness :
    roleStage { tpl := c4firstH2, d := allFalse } =
      replaceRole { tpl := c4firstH2, d := allFalse } c4firstH2 5 :=
  (role_stage_first_h2_amended { tpl := c4firstH2, d := allFalse } 0 c4firstH2 []
    (by decide)).2 (by decide) (by decide) (by decide)

/-- C4 counterexample: with a keyword-free first `<h2>` ("My Hobbies")
and a keyword-matching second `<h2>` ("Senior Developer"), the pipeline
replaces the first one and leaves the keyword-matching element intact. -/
theorem role_fallback_preempts_cex :
    containsSub ("<h2>".toList ++ tokRole ++ "</h2><h2>Senior Developer</h2>".toList)
      (convertHTMLToTemplate c4html origin0).template = true ∧
    reTest roleWordsRE "Senior Developer".toList = true ∧
    reTest roleWordsRE "My Hobbies".toList = false := by
  decide

/-- C5 (amended): a removable section is kept only when it already
contains one of the three tokens `{{#each`, `{{bio}}`, `{{role}}`;
a section containing only another placeholder (such as `{{name}}`) is
still removed. -/
theorem remove_guard_amended :
    (∀ (t : Str) (re : RE) (sec : Region),
        findFullSection (reMatcher re) t = some sec →
        (containsSub tokHashEach sec.full || containsSub tokBio sec.full ||
         containsSub tokRole sec.full) = true →
        removeOne t re = t) ∧
    (∀ (t : Str) (re : RE) (sec : Region),
        findFullSection (reMatcher re) t = some sec →
        (containsSub tokHashEach sec.full || containsSub tokBio sec.full ||
         containsSub tokRole sec.full) = false →
        removeOne t re = replaceFirstSub sec.full [] t) := by
  constructor
  · intro t re sec h hc
    unfold removeOne
    rw [h]
    cases ha : containsSub tokHashEach sec.full <;>
      cases hb : containsSub tokBio sec.full <;>
        cases hr : containsSub tokRole sec.full <;>
          simp_all
  · intro t re sec h hc
    unfold removeOne
    rw [h]
    cases ha : containsSub tokHashEach sec.full <;>
      cases hb : containsSub tokBio sec.full <;>
        cases hr : containsSub tokRole sec.full <;>
          simp_all

theorem remove_guard_amended_witness :
    removeOne c5keep (secDivOpen ["experience", "work-history", "employment", "career"]) =
      c5keep :=
  remove_guard_amended.1 c5keep
    (secDivOpen ["experience", "work-history", "employment", "career"]) c5keepSec
    (by decide) (by decide)

/-- C5 counterexample: on `c5html` the global name cleanup plants
`{{name}}` inside the experience section, yet the removal stage deletes
the whole section (the guard only checks `{{#each`, `{{bio}}` and
`{{role}}`), so the section is not left in the output. -/
theorem remove_name_placeholder_cex :
    (preRemoval c5html origin0).tpl = c5pre ∧
    containsSub (tokName ++ " worked at X for a while".toList) c5pre = true ∧
    containsSub "worked at X".toList (removeStage c5pre) = false ∧
    (convertHTMLToTemplate c5html origin0).detected.name = true ∧
    containsSub "worked at X".toList
      (convertHTMLToTemplate c5html origin0).template = false := by
  decide

/-- C9: whenever the first `<h1>`'s inner text with tags stripped has
length between 2 and 80 (the source's `> 1 && < 80`, i.e. 2..79), that
`<h1>` content is replaced with the `{{{name}}}` placeholder (which
carries the `{{name}}` token) and `detected.name` is set. -/
theorem name_from_first_h1 :
    (∀ (st : CState) (i : Nat) (m : Str),
      reFind h1RE st.tpl = some (i, m) →
      1 < (trimS (stripTags (h1Decomp m).2)).length →
      (trimS (stripTags (h1Decomp m).2)).length < 80 →
      nameStage st =
        { tpl := replaceFirstSub m
            ("<h1".toList ++ (h1Decomp m).1 ++ ['>'] ++ tokName3 ++ "</h1>".toList) st.tpl,
          d := { st.d with name := true } }) ∧
    containsSub tokName tokName3 = true := by
  constructor
  · intro st i m hfind h1 h80
    unfold nameStage
    rw [hfind]
    simp only []
    rw [if_pos]
    simp [h1, h80]
  · decide

theorem name_from_first_h1_witness :
    nameStage { tpl := c9html, d := allFalse } =
      { tpl := "<h1>".toList ++ tokName3 ++ "</h1>".toList,
        d := { allFalse with name := true } } := by
  have h := name_from_first_h1.1 { tpl := c9html, d := allFalse } 0 c9html
    (by decide) (by decide) (by decide)
  rw [h]
  decide

end Neurathon
